import Mathlib

/-!
Shallow embedding of the transaction-consistency engine of the CRM/POS
system in `src/Files/script.js`, together with proofs about its operations.

Conventions of the embedding:
* JS numbers that hold money, quantities and stock are embedded as `ℚ`
  (the arithmetic identities at stake are exact, no float rounding enters
  any claim);
* `parseFloat`/`parseInt` results that may be `NaN` are embedded as
  `Option ℚ` (`none` = `NaN`);
* a handler that shows an error modal and returns without touching
  `posData` is embedded as a function returning `none`; a successful run
  returns `some` of the updated document;
* the pattern `collection.find(pred)` followed by in-place mutation of the
  found object is embedded as `updateFirst`: the first matching element is
  replaced, the rest of the list is untouched;
* `crypto.randomUUID()` results are threaded in as explicit `String`
  parameters; the only fact about them that any proof uses is that a
  36-character UUID is never the 4-character literal "main".
-/

namespace CRM

/-- Inventory item: `{ id, code, name, description, price, stock, threshold }`. -/
structure InventoryItem where
  id : String
  code : String
  name : String
  description : String
  price : ℚ
  stock : ℚ
  threshold : ℚ
deriving DecidableEq, Repr

/-- Registered customer: `{ id, name, address, tp, creditLimit, outstandingCredit }`. -/
structure Customer where
  id : String
  name : String
  address : String
  tp : String
  creditLimit : ℚ
  outstandingCredit : ℚ
deriving DecidableEq, Repr

/-- Distribution channel: `{ id, name, regNo, address, hotline, receiptLogo }`. -/
structure Channel where
  id : String
  name : String
  regNo : String
  address : String
  hotline : String
  receiptLogo : String
deriving DecidableEq, Repr

/-- Cheque details attached to a sale or installment:
`{ number, bank, dueDate }`. -/
structure ChequeDetails where
  number : String
  bank : String
  dueDate : String
deriving DecidableEq, Repr

/-- The customer snapshot embedded (by value) in a sale:
`{ type, id, name, address, tp }`. -/
structure CustomerSnapshot where
  type : String
  id : String
  name : String
  address : String
  tp : String
deriving DecidableEq, Repr

/-- One line of the billing cart.  The JS cart line is the spread of the
item (inventory copy or manual entry) plus `qty`; the spread's
`description` and `stock` fields are never read by any engine operation
and are omitted. -/
structure CartLine where
  id : String
  code : String
  name : String
  price : ℚ
  qty : ℚ
deriving DecidableEq, Repr

/-- The item argument of `addItemToCart` (an inventory item copy or a
manual entry): the fields of it that the cart keeps. -/
structure Item where
  id : String
  code : String
  name : String
  price : ℚ
deriving DecidableEq, Repr

/-- A recorded sale (`posData.sales` entry). -/
structure Sale where
  id : String
  date : String
  time : String
  customer : CustomerSnapshot
  channelId : String
  items : List CartLine
  subtotal : ℚ
  discountType : String
  discountValue : ℚ
  discountAmount : ℚ
  grandTotal : ℚ
  paymentMethod : String
  paymentRef : String
  chequeDetails : Option ChequeDetails
deriving DecidableEq, Repr

/-- A payment row (`posData.payments` entry, also the entries of a credit
bill's `paymentHistory`). -/
structure Payment where
  id : String
  date : String
  billId : String
  amount : ℚ
  method : String
  reference : String
  chequeDetails : Option ChequeDetails
deriving DecidableEq, Repr

/-- A credit bill (`posData.creditBills` entry). -/
structure CreditBill where
  id : String
  billId : String
  customerId : String
  totalAmount : ℚ
  paidAmount : ℚ
  dueAmount : ℚ
  billDate : String
  dueDate : String
  paymentHistory : List Payment
deriving DecidableEq, Repr

/-- A cheque tracking row (`posData.cheques` entry). -/
structure Cheque where
  id : String
  billId : String
  chequeNumber : String
  bank : String
  amount : ℚ
  dueDate : String
  status : String
deriving DecidableEq, Repr

/-- One line of a GRN (stock receipt): `{ id, code, name, qty }`. -/
structure GrnLine where
  id : String
  code : String
  name : String
  qty : ℚ
deriving DecidableEq, Repr

/-- A GRN record (`posData.grns` entry). -/
structure Grn where
  id : String
  date : String
  supplier : String
  items : List GrnLine
deriving DecidableEq, Repr

/-- A quotation record.  No engine operation reads its fields; it is kept
only so that the persisted document has all nine collections. -/
structure Quotation where
  id : String
  date : String
  customerName : String
  total : ℚ
deriving DecidableEq, Repr

/-- The persisted document `posData` (the `shop` branding block is
presentation-only and carries no engine state, so it is omitted). -/
structure POSData where
  inventory : List InventoryItem
  customers : List Customer
  distributionChannels : List Channel
  sales : List Sale
  grns : List Grn
  quotations : List Quotation
  payments : List Payment
  creditBills : List CreditBill
  cheques : List Cheque
deriving DecidableEq, Repr

/-- The default `main` distribution channel of `defaultPOSData`. -/
def mainChannel : Channel :=
  { id := "main", name := "Main Shop", regNo := ""
    address := "123 Main Street, Colombo, Sri Lanka", hotline := "077-1234567"
    receiptLogo := "https://placehold.co/80x80/000000/FFFFFF?text=LOGO" }

/-- `defaultPOSData`: every collection empty except the default main
channel. -/
def defaultPOSData : POSData :=
  { inventory := [], customers := [], distributionChannels := [mainChannel]
    sales := [], grns := [], quotations := [], payments := []
    creditBills := [], cheques := [] }

/-- A persisted inventory item as stored: its `threshold` field may be
absent (old schema). -/
structure StoredInventoryItem where
  id : String
  code : String
  name : String
  description : String
  price : ℚ
  stock : ℚ
  threshold : Option ℚ
deriving DecidableEq, Repr

/-- The threshold migration of `loadPOSData`:
`{ ...item, threshold: item.threshold || 0 }`. -/
def migrateItem (it : StoredInventoryItem) : InventoryItem :=
  { id := it.id, code := it.code, name := it.name, description := it.description
    price := it.price, stock := it.stock, threshold := it.threshold.getD 0 }

/-- A persisted document as read back from storage: every collection may
be absent. -/
structure StoredDoc where
  inventory : Option (List StoredInventoryItem)
  customers : Option (List Customer)
  distributionChannels : Option (List Channel)
  sales : Option (List Sale)
  grns : Option (List Grn)
  quotations : Option (List Quotation)
  payments : Option (List Payment)
  creditBills : Option (List CreditBill)
  cheques : Option (List Cheque)
deriving DecidableEq, Repr

/-- `loadPOSData`: `none` input = no stored document (fall back to
`defaultPOSData`); for a stored document, each absent collection is filled
with `[]` via `posData.X = posData.X || []` — except `distributionChannels`,
which falls back to `defaultPOSData.distributionChannels` — and the
inventory is run through the threshold migration. -/
def loadPOSData (doc : Option StoredDoc) : POSData :=
  match doc with
  | none => defaultPOSData
  | some d =>
    { inventory := (d.inventory.getD []).map migrateItem
      customers := d.customers.getD []
      distributionChannels := d.distributionChannels.getD defaultPOSData.distributionChannels
      sales := d.sales.getD []
      grns := d.grns.getD []
      quotations := d.quotations.getD []
      payments := d.payments.getD []
      creditBills := d.creditBills.getD []
      cheques := d.cheques.getD [] }

/-- The stored form of a live inventory item (used to state the
save/load round trip). -/
def storeItem (it : InventoryItem) : StoredInventoryItem :=
  { id := it.id, code := it.code, name := it.name, description := it.description
    price := it.price, stock := it.stock, threshold := some it.threshold }

/-- `savePOSData` serializes the whole in-memory document; reading it back
yields every collection present. -/
def saveDoc (st : POSData) : StoredDoc :=
  { inventory := some (st.inventory.map storeItem)
    customers := some st.customers
    distributionChannels := some st.distributionChannels
    sales := some st.sales
    grns := some st.grns
    quotations := some st.quotations
    payments := some st.payments
    creditBills := some st.creditBills
    cheques := some st.cheques }

/-- A stored document with every collection absent. -/
def emptyStoredDoc : StoredDoc :=
  { inventory := none, customers := none, distributionChannels := none
    sales := none, grns := none, quotations := none, payments := none
    creditBills := none, cheques := none }

/-- `list.find(x => x.id === id)` followed by in-place mutation of the
found object: replace the first element satisfying `p` by its image under
`f`; when nothing matches, the list is untouched (the JS `if (found)`
guard). -/
def updateFirst {α : Type} (p : α → Bool) (f : α → α) : List α → List α
  | [] => []
  | x :: xs => if p x then f x :: xs else x :: updateFirst p f xs

/-- `posData.inventory.find(i => i.id === id)`. -/
def findItem (inv : List InventoryItem) (id : String) : Option InventoryItem :=
  inv.find? (fun i => i.id == id)

/-- `deleteDistributionChannel(id)`: deleting the channel with id
`"main"` is refused (document untouched); otherwise every channel with
that id is filtered out. -/
def deleteDistributionChannel (st : POSData) (id : String) : POSData :=
  if id = "main" then st
  else { st with distributionChannels := st.distributionChannels.filter (fun c => c.id != id) }

/-- The `addDistributionChannelForm` submit handler: pushes a new channel
whose id is a fresh `crypto.randomUUID()` (passed in as `newId`). -/
def addDistributionChannel (st : POSData)
    (newId nm regNo address hotline receiptLogo : String) : POSData :=
  { st with distributionChannels :=
      st.distributionChannels ++ [⟨newId, nm, regNo, address, hotline, receiptLogo⟩] }

/-- The shape of a `crypto.randomUUID()` result: 36 characters
(8-4-4-4-12 hex digits with hyphens).  The only consequence used in
proofs is that such an id is never the literal `"main"`. -/
def isGeneratedId (s : String) : Prop := s.length = 36

/-- The document states reachable from the initial document through the
distribution-channel operations: the initial load (no stored document),
adding a channel (with a freshly generated id), deleting a channel, and
re-loading a previously saved document. -/
inductive ChannelReach : POSData → Prop
  | init : ChannelReach (loadPOSData none)
  | addChannel (st : POSData) (newId nm regNo address hotline logo : String) :
      ChannelReach st → isGeneratedId newId →
      ChannelReach (addDistributionChannel st newId nm regNo address hotline logo)
  | delChannel (st : POSData) (id : String) :
      ChannelReach st → ChannelReach (deleteDistributionChannel st id)
  | reload (st : POSData) :
      ChannelReach st → ChannelReach (loadPOSData (some (saveDoc st)))

/-- Number of distribution channels whose id is `"main"`. -/
def mainCount (st : POSData) : Nat :=
  (st.distributionChannels.filter (fun c => c.id == "main")).length

/-- `addItemToCart(item, quantity)`: if a cart line with the item's id
exists, its quantity is increased (rejected when the item is live in
inventory and the increased quantity exceeds its stock); otherwise a new
line is pushed (rejected when the item is live in inventory and the
quantity exceeds its stock).  Lines with no matching inventory item are
never stock-checked.  `none` = rejected: the handler returns after the
error modal, touching neither the cart nor the inventory. -/
def addItemToCart (inv : List InventoryItem) (item : Item) (quantity : ℚ) :
    List CartLine → Option (List CartLine)
  | [] =>
    match findItem inv item.id with
    | some invItem =>
      if quantity > invItem.stock then none
      else some [⟨item.id, item.code, item.name, item.price, quantity⟩]
    | none => some [⟨item.id, item.code, item.name, item.price, quantity⟩]
  | c :: rest =>
    if c.id == item.id then
      match findItem inv item.id with
      | some invItem =>
        if c.qty + quantity > invItem.stock then none
        else some ({ c with qty := c.qty + quantity } :: rest)
      | none => some ({ c with qty := c.qty + quantity } :: rest)
    else
      (addItemToCart inv item quantity rest).map (c :: ·)

/-- The carts constructible by the billing screen against a fixed
inventory: the empty cart, grown by successful `addItemToCart` calls. -/
inductive CartBuilt (inv : List InventoryItem) : List CartLine → Prop
  | nil : CartBuilt inv []
  | add (cart cart' : List CartLine) (item : Item) (quantity : ℚ) :
      CartBuilt inv cart → addItemToCart inv item quantity cart = some cart' →
      CartBuilt inv cart'

/-- The inventory update loop of the `processBillBtn` handler: for each
cart line, the first inventory item with the line's id (if any) has its
stock decremented by the line's qty. -/
def applyCartToInventory (cart : List CartLine) (inv : List InventoryItem) :
    List InventoryItem :=
  cart.foldl (fun acc line =>
    updateFirst (fun i => i.id == line.id)
      (fun i => { i with stock := i.stock - line.qty }) acc) inv

/-- The subtotal accumulated by `renderCart` into the subtotal span:
`subtotal += item.price * item.qty`. -/
def cartSubtotal (cart : List CartLine) : ℚ :=
  cart.foldl (fun s l => s + l.price * l.qty) 0

/-- The discount value actually used by `calculateGrandTotal`: a `NaN` or
negative input is written back to the input box as `0` and the function
recurses with zero discount. -/
def effectiveDiscountValue (v : Option ℚ) : ℚ :=
  match v with
  | none => 0
  | some x => if x < 0 then 0 else x

/-- The discount amount computed by `calculateGrandTotal`: flat (`"lkr"`)
or percentage, then capped at the subtotal by
`Math.min(discountAmount, subtotal)`. -/
def discountAmountCalc (subtotal : ℚ) (dType : String) (v : Option ℚ) : ℚ :=
  min (if dType = "lkr" then effectiveDiscountValue v
       else subtotal * effectiveDiscountValue v / 100) subtotal

/-- The grand total written by `calculateGrandTotal` into the grand-total
span: `subtotal - discountAmount`. -/
def calculateGrandTotal (subtotal : ℚ) (dType : String) (v : Option ℚ) : ℚ :=
  subtotal - discountAmountCalc subtotal dType v

/-- The non-cart inputs of the `processBillBtn` handler: form fields plus
the ids and timestamps generated during the run. -/
structure BillInput where
  billId : String
  date : String
  time : String
  customerType : String
  walkingId : String
  walkingName : String
  walkingAddress : String
  walkingTp : String
  registeredCustomerId : String
  channelId : String
  discountType : String
  discountValueInput : Option ℚ
  paymentMethod : String
  paymentRef : String
  chequeNumber : String
  chequeBank : String
  chequeDueDate : String
  paymentId : String
  creditBillId : String
  chequeId : String
deriving DecidableEq, Repr

/-- The grand total the `processBillBtn` handler parses back from the
grand-total span for the current cart and discount inputs. -/
def grandTotalOf (cart : List CartLine) (inp : BillInput) : ℚ :=
  calculateGrandTotal (cartSubtotal cart) inp.discountType inp.discountValueInput

/-- Customer resolution of the `processBillBtn` handler: a walking
customer yields a fresh snapshot (name defaulted to "Walking Customer");
a registered customer must be selected (non-empty dropdown value) and
found, and is returned alongside its snapshot. -/
def resolveCustomer (st : POSData) (inp : BillInput) :
    Option (CustomerSnapshot × Option Customer) :=
  if inp.customerType = "walking" then
    some ({ type := "walking", id := inp.walkingId
            name := if inp.walkingName = "" then "Walking Customer" else inp.walkingName
            address := inp.walkingAddress, tp := inp.walkingTp }, none)
  else if inp.registeredCustomerId = "" then none
  else
    match st.customers.find? (fun c => c.id == inp.registeredCustomerId) with
    | none => none
    | some c =>
      some ({ type := "registered", id := c.id, name := c.name
              address := c.address, tp := c.tp }, some c)

/-- Cheque-details validation of the `processBillBtn` handler: when the
payment method is cheque, number, bank and due date must all be
non-empty. -/
def checkCheque (inp : BillInput) : Option (Option ChequeDetails) :=
  if inp.paymentMethod = "cheque" then
    if inp.chequeNumber = "" ∨ inp.chequeBank = "" ∨ inp.chequeDueDate = "" then none
    else some (some ⟨inp.chequeNumber, inp.chequeBank, inp.chequeDueDate⟩)
  else some none

/-- The data the validation phase of the `processBillBtn` handler hands to
the mutation phase. -/
structure BillContext where
  snap : CustomerSnapshot
  selectedCustomer : Option Customer
  chequeDetails : Option ChequeDetails
deriving DecidableEq, Repr

/-- The validation phase of the `processBillBtn` handler, in source
order: empty cart, customer resolution, the credit checks (walking
customer refused; credit limit), cheque details.  All checks precede
every mutation in the handler, so a `none` result is a run with zero side
effects. -/
def validateBill (st : POSData) (cart : List CartLine) (inp : BillInput) :
    Option BillContext :=
  if cart.isEmpty then none
  else
    match resolveCustomer st inp with
    | none => none
    | some (snap, sel) =>
      if inp.paymentMethod = "credit" then
        match sel with
        | none => none
        | some c =>
          if c.outstandingCredit + grandTotalOf cart inp > c.creditLimit then none
          else (checkCheque inp).map (fun cd => ⟨snap, sel, cd⟩)
      else (checkCheque inp).map (fun cd => ⟨snap, sel, cd⟩)

/-- The `newSale` object built by the `processBillBtn` handler.  The cart
lines are deep-copied (`JSON.parse(JSON.stringify(currentCart))`);
`discountAmount` is computed as subtotal span minus grand total span. -/
def mkSale (cart : List CartLine) (inp : BillInput) (ctx : BillContext) : Sale :=
  { id := inp.billId, date := inp.date, time := inp.time, customer := ctx.snap
    channelId := inp.channelId, items := cart
    subtotal := cartSubtotal cart
    discountType := inp.discountType
    discountValue := effectiveDiscountValue inp.discountValueInput
    discountAmount := cartSubtotal cart - grandTotalOf cart inp
    grandTotal := grandTotalOf cart inp
    paymentMethod := inp.paymentMethod, paymentRef := inp.paymentRef
    chequeDetails := ctx.chequeDetails }

/-- The `newPayment` object built by the `processBillBtn` handler. -/
def mkBillPayment (inp : BillInput) (g : ℚ) (cd : Option ChequeDetails) : Payment :=
  { id := inp.paymentId, date := inp.date, billId := inp.billId, amount := g
    method := inp.paymentMethod, reference := inp.paymentRef, chequeDetails := cd }

/-- The mutation phase of the `processBillBtn` handler, in source order:
push the sale, decrement inventory, push the payment, then the credit
block (credit bill + outstanding credit of the selected customer) and the
cheque block. -/
def buildBillState (st : POSData) (cart : List CartLine) (inp : BillInput)
    (ctx : BillContext) : POSData :=
  let g := grandTotalOf cart inp
  let base := { st with
    sales := st.sales ++ [mkSale cart inp ctx]
    inventory := applyCartToInventory cart st.inventory
    payments := st.payments ++ [mkBillPayment inp g ctx.chequeDetails] }
  let withCredit :=
    if inp.paymentMethod = "credit" then
      match ctx.selectedCustomer with
      | some c =>
        { base with
          creditBills := base.creditBills ++
            [{ id := inp.creditBillId, billId := inp.billId, customerId := c.id
               totalAmount := g, paidAmount := 0, dueAmount := g
               billDate := inp.date, dueDate := "", paymentHistory := [] }]
          customers := updateFirst (fun x => x.id == c.id)
            (fun x => { x with outstandingCredit := x.outstandingCredit + g })
            base.customers }
      | none => base
    else base
  if inp.paymentMethod = "cheque" then
    match ctx.chequeDetails with
    | some cd =>
      { withCredit with cheques := withCredit.cheques ++
          [{ id := inp.chequeId, billId := inp.billId, chequeNumber := cd.number
             bank := cd.bank, amount := g, dueDate := cd.dueDate, status := "Pending" }] }
    | none => withCredit
  else withCredit

/-- The `processBillBtn` click handler: validation then mutation.  `none`
= rejected with zero side effects. -/
def processBill (st : POSData) (cart : List CartLine) (inp : BillInput) :
    Option POSData :=
  (validateBill st cart inp).map (buildBillState st cart inp)

/-- The fields of the inventory edit form
(`price`/`stock`/`threshold` come through `parseFloat`/`parseInt`,
`none` = `NaN`). -/
structure ItemEditInput where
  code : String
  name : String
  description : String
  price : Option ℚ
  stock : Option ℚ
  threshold : Option ℚ
deriving DecidableEq, Repr

/-- `editInventoryItem(id)` followed by the rebound submit handler:
rejects when the item is missing, a numeric field is `NaN`/negative, or a
changed code collides with another item; otherwise overwrites the found
item's fields in place. -/
def editInventoryItem (st : POSData) (id : String) (u : ItemEditInput) :
    Option POSData :=
  match st.inventory.find? (fun i => i.id == id) with
  | none => none
  | some item =>
    match u.price, u.stock, u.threshold with
    | some price, some stock, some threshold =>
      if price < 0 ∨ stock < 0 ∨ threshold < 0 then none
      else if u.code ≠ item.code ∧
          st.inventory.any (fun i => i.code == u.code && i.id != id) then none
      else
        let apply := fun (i : InventoryItem) =>
          { i with code := u.code, name := u.name, description := u.description
                   price := price, stock := stock, threshold := threshold }
        some { st with inventory := updateFirst (fun i => i.id == id) apply st.inventory }
    | _, _, _ => none

/-- `deleteInventoryItem(id)`: filters the item out of the inventory;
no other collection is touched. -/
def deleteInventoryItem (st : POSData) (id : String) : POSData :=
  { st with inventory := st.inventory.filter (fun i => i.id != id) }

/-- The inventory update loop of the `createGrnForm` submit handler: for
each GRN line, the first inventory item with the line's id (if any) has
its stock incremented by the line's qty. -/
def applyGrnToInventory (items : List GrnLine) (inv : List InventoryItem) :
    List InventoryItem :=
  items.foldl (fun acc gi =>
    updateFirst (fun i => i.id == gi.id)
      (fun i => { i with stock := i.stock + gi.qty }) acc) inv

/-- The `createGrnForm` submit handler: rejects when supplier, date or the
item list is empty; otherwise appends the GRN record (with a deep copy of
its lines) and replays the lines onto the inventory. -/
def submitGrn (st : POSData) (grnId supplier grnDate : String)
    (items : List GrnLine) : Option POSData :=
  if supplier = "" ∨ grnDate = "" ∨ items.isEmpty then none
  else some { st with
    grns := st.grns ++ [{ id := grnId, date := grnDate, supplier := supplier, items := items }]
    inventory := applyGrnToInventory items st.inventory }

/-- The inputs of the `addInstallmentBtn` click handler. -/
structure InstallmentInput where
  creditBillId : String
  amountInput : Option ℚ
  method : String
  reference : String
  chequeNumber : String
  chequeBank : String
  chequeDueDate : String
  date : String
  paymentId : String
  chequeId : String
deriving DecidableEq, Repr

/-- The `addInstallmentBtn` click handler: rejects when the credit bill is
missing, the amount is `NaN`/non-positive, the amount exceeds the due
amount, or (cheque method) a cheque detail is missing.  On success it
updates the found credit bill in place (`paidAmount += amount`,
`dueAmount -= amount`, history append), appends the payment globally with
the *original* `billId`, subtracts `amount` from the owning customer's
`outstandingCredit` (plain `-=`, no clamp; skipped if the customer is
missing), and for cheque installments appends a Pending cheque over the
installment amount. -/
def addInstallment (st : POSData) (inp : InstallmentInput) : Option POSData :=
  match st.creditBills.find? (fun b => b.id == inp.creditBillId) with
  | none => none
  | some creditBill =>
    match inp.amountInput with
    | none => none
    | some amount =>
      if amount ≤ 0 then none
      else if amount > creditBill.dueAmount then none
      else
        match (if inp.method = "cheque" then
                 if inp.chequeNumber = "" ∨ inp.chequeBank = "" ∨ inp.chequeDueDate = ""
                 then none
                 else some (some (ChequeDetails.mk inp.chequeNumber inp.chequeBank inp.chequeDueDate))
               else some (none : Option ChequeDetails)) with
        | none => none
        | some cd =>
          let newPaymentRecord : Payment :=
            { id := inp.paymentId, date := inp.date, billId := creditBill.billId
              amount := amount, method := inp.method, reference := inp.reference
              chequeDetails := cd }
          let applyBill := fun (b : CreditBill) =>
            { b with paidAmount := b.paidAmount + amount
                     dueAmount := b.dueAmount - amount
                     paymentHistory := b.paymentHistory ++ [newPaymentRecord] }
          let applyCustomer := fun (c : Customer) =>
            { c with outstandingCredit := c.outstandingCredit - amount }
          let newCheques := match cd with
            | some d => st.cheques ++
                [{ id := inp.chequeId, billId := creditBill.billId
                   chequeNumber := d.number, bank := d.bank, amount := amount
                   dueDate := d.dueDate, status := "Pending" }]
            | none => st.cheques
          some { st with
            creditBills := updateFirst (fun b => b.id == inp.creditBillId) applyBill st.creditBills
            payments := st.payments ++ [newPaymentRecord]
            customers := updateFirst (fun c => c.id == creditBill.customerId) applyCustomer st.customers
            cheques := newCheques }

/-- `deleteCreditBill(id)`: no-op when the bill is missing; otherwise the
owning customer's `outstandingCredit` is reduced by the bill's current
`dueAmount` and clamped at 0, and the bill is filtered out.  Sales and
payments are untouched. -/
def deleteCreditBill (st : POSData) (id : String) : POSData :=
  match st.creditBills.find? (fun b => b.id == id) with
  | none => st
  | some creditBill =>
    let applyCustomer := fun (c : Customer) =>
      let oc := c.outstandingCredit - creditBill.dueAmount
      { c with outstandingCredit := if oc < 0 then 0 else oc }
    { st with
      customers := updateFirst (fun c => c.id == creditBill.customerId) applyCustomer st.customers
      creditBills := st.creditBills.filter (fun b => b.id != id) }

/-- `updateChequeStatus(id, newStatus)`: the first cheque with the given
id gets the new status; nothing else is touched (including when the
cheque is missing, where the handler only shows an error). -/
def updateChequeStatus (st : POSData) (id newStatus : String) : POSData :=
  let setStatus := fun (c : Cheque) => { c with status := newStatus }
  { st with cheques := updateFirst (fun c => c.id == id) setStatus st.cheques }

/-! ### Lemmas about `updateFirst` -/

theorem updateFirst_cons_pos {α : Type} (p : α → Bool) (f : α → α)
    (x : α) (xs : List α) (hx : p x = true) :
    updateFirst p f (x :: xs) = f x :: xs := by
  simp [updateFirst, hx]

theorem updateFirst_cons_neg {α : Type} (p : α → Bool) (f : α → α)
    (x : α) (xs : List α) (hx : p x = false) :
    updateFirst p f (x :: xs) = x :: updateFirst p f xs := by
  simp [updateFirst, hx]

theorem updateFirst_of_find?_none {α : Type} (p : α → Bool) (f : α → α) :
    ∀ l : List α, l.find? p = none → updateFirst p f l = l := by
  intro l h
  induction l with
  | nil => rfl
  | cons x xs ih =>
    cases hx : p x with
    | true =>
      rw [List.find?_cons_of_pos _ hx] at h
      exact absurd h (by simp)
    | false =>
      rw [List.find?_cons_of_neg _ (by simp [hx])] at h
      rw [updateFirst_cons_neg _ _ _ _ hx, ih h]

theorem find?_updateFirst_self {α : Type} (p : α → Bool) (f : α → α)
    (hpf : ∀ x, p (f x) = p x) :
    ∀ l : List α, (updateFirst p f l).find? p = (l.find? p).map f := by
  intro l
  induction l with
  | nil => rfl
  | cons x xs ih =>
    cases hx : p x with
    | true =>
      have hfx : p (f x) = true := by rw [hpf]; exact hx
      rw [updateFirst_cons_pos _ _ _ _ hx, List.find?_cons_of_pos _ hfx,
          List.find?_cons_of_pos _ hx, Option.map_some']
    | false =>
      have hq : ¬ (p x = true) := by simp [hx]
      rw [updateFirst_cons_neg _ _ _ _ hx, List.find?_cons_of_neg _ hq,
          List.find?_cons_of_neg _ hq, ih]

theorem find?_updateFirst_of_disjoint {α : Type} (p q : α → Bool) (f : α → α)
    (hpq : ∀ x, p x = true → q x = false) (hqf : ∀ x, q (f x) = q x) :
    ∀ l : List α, (updateFirst p f l).find? q = l.find? q := by
  intro l
  induction l with
  | nil => rfl
  | cons x xs ih =>
    cases hx : p x with
    | true =>
      have hqx : ¬ (q x = true) := by simp [hpq x hx]
      have hqfx : ¬ (q (f x) = true) := by rw [hqf]; simp [hpq x hx]
      rw [updateFirst_cons_pos _ _ _ _ hx, List.find?_cons_of_neg _ hqfx,
          List.find?_cons_of_neg _ hqx]
    | false =>
      rw [updateFirst_cons_neg _ _ _ _ hx]
      cases hqx : q x with
      | true =>
        rw [List.find?_cons_of_pos _ hqx, List.find?_cons_of_pos _ hqx]
      | false =>
        have h' : ¬ (q x = true) := by simp [hqx]
        rw [List.find?_cons_of_neg _ h', List.find?_cons_of_neg _ h', ih]

theorem mem_updateFirst_of_neg {α : Type} (p : α → Bool) (f : α → α)
    (l : List α) (x : α) (hx : x ∈ l) (hpx : p x = false) :
    x ∈ updateFirst p f l := by
  induction l with
  | nil => exact absurd hx (by simp)
  | cons y ys ih =>
    cases hy : p y with
    | true =>
      rw [updateFirst_cons_pos _ _ _ _ hy]
      rcases List.mem_cons.mp hx with h | h
      · rw [h] at hpx; rw [hpx] at hy; exact absurd hy (by decide)
      · exact List.mem_cons_of_mem _ h
    | false =>
      rw [updateFirst_cons_neg _ _ _ _ hy]
      rcases List.mem_cons.mp hx with h | h
      · rw [h]; exact List.mem_cons_self _ _
      · exact List.mem_cons_of_mem _ (ih h)

theorem updateFirst_idem {α : Type} (p : α → Bool) (f : α → α)
    (hpf : ∀ x, p (f x) = p x) (hff : ∀ x, f (f x) = f x) :
    ∀ l : List α, updateFirst p f (updateFirst p f l) = updateFirst p f l := by
  intro l
  induction l with
  | nil => rfl
  | cons x xs ih =>
    cases hx : p x with
    | true =>
      have hfx : p (f x) = true := by rw [hpf]; exact hx
      rw [updateFirst_cons_pos _ _ _ _ hx, updateFirst_cons_pos _ _ _ _ hfx, hff]
    | false =>
      rw [updateFirst_cons_neg _ _ _ _ hx, updateFirst_cons_neg _ _ _ _ hx, ih]

/-! ### C8: the cheque status machine -/

/-- C8: `setStatus(chequeId, s)` succeeds from any current status (the
found cheque's status simply becomes `s`, whatever it was), it is
idempotent, and it changes nothing but that cheque's status field: every
other collection of the document is untouched and every cheque with a
different id is kept as it is. -/
theorem updateChequeStatus_correct (st : POSData) (id s : String) :
    ((updateChequeStatus st id s).cheques.find? (fun c => c.id == id)
        = (st.cheques.find? (fun c => c.id == id)).map (fun c => { c with status := s }))
  ∧ updateChequeStatus (updateChequeStatus st id s) id s = updateChequeStatus st id s
  ∧ (updateChequeStatus st id s).inventory = st.inventory
  ∧ (updateChequeStatus st id s).customers = st.customers
  ∧ (updateChequeStatus st id s).distributionChannels = st.distributionChannels
  ∧ (updateChequeStatus st id s).sales = st.sales
  ∧ (updateChequeStatus st id s).grns = st.grns
  ∧ (updateChequeStatus st id s).quotations = st.quotations
  ∧ (updateChequeStatus st id s).payments = st.payments
  ∧ (updateChequeStatus st id s).creditBills = st.creditBills
  ∧ (∀ c ∈ st.cheques, (c.id == id) = false →
       c ∈ (updateChequeStatus st id s).cheques) := by
  refine ⟨?_, ?_, rfl, rfl, rfl, rfl, rfl, rfl, rfl, rfl, ?_⟩
  · exact find?_updateFirst_self (fun c => c.id == id)
      (fun c => { c with status := s }) (fun x => rfl) st.cheques
  · simp only [updateChequeStatus]
    rw [updateFirst_idem (fun c => c.id == id) (fun c => { c with status := s })
      (fun x => rfl) (fun x => rfl) st.cheques]
  · intro c hc hcid
    exact mem_updateFirst_of_neg _ _ _ _ hc hcid

/-! ### C9: historical sales are immune to inventory edits -/

/-- C9: editing an inventory item's fields (price included) or deleting
an inventory item leaves the `sales` collection — and with it every
recorded sale's line-item snapshot and totals — exactly as it was. -/
theorem inventoryEdits_preserve_sales (st : POSData) (id : String) (u : ItemEditInput) :
    (∀ st', editInventoryItem st id u = some st' → st'.sales = st.sales)
  ∧ (deleteInventoryItem st id).sales = st.sales := by
  constructor
  · intro st' h
    unfold editInventoryItem at h
    split at h
    · exact absurd h (by simp)
    · split at h
      · split at h
        · exact absurd h (by simp)
        · split at h
          · exact absurd h (by simp)
          · injection h with h2
            rw [← h2]
      · exact absurd h (by simp)
  · rfl

/-- A concrete inventory item for witnesses. -/
def itemW : InventoryItem :=
  { id := "i1", code := "SKU1", name := "Widget", description := ""
    price := 100, stock := 10, threshold := 2 }

/-- A concrete recorded sale for witnesses (one line of 3 × 100, flat
discount 10). -/
def saleW : Sale :=
  { id := "BILL-1", date := "2025-01-01", time := "10:00:00"
    customer := { type := "walking", id := "w1", name := "Walking Customer"
                  address := "", tp := "" }
    channelId := "main"
    items := [{ id := "i1", code := "SKU1", name := "Widget", price := 100, qty := 3 }]
    subtotal := 300, discountType := "lkr", discountValue := 10
    discountAmount := 10, grandTotal := 290, paymentMethod := "cash"
    paymentRef := "", chequeDetails := none }

/-- A concrete document holding `itemW` and the historical sale `saleW`. -/
def stInvW : POSData :=
  { defaultPOSData with inventory := [itemW], sales := [saleW] }

/-- A concrete valid edit of `itemW` that changes its price. -/
def editW : ItemEditInput :=
  { code := "SKU1", name := "Widget", description := "updated"
    price := some 120, stock := some 4, threshold := some 0 }

/-- The document produced by applying `editW` to `itemW` in `stInvW`. -/
def stInvEditedW : POSData :=
  { stInvW with inventory :=
      [{ id := "i1", code := "SKU1", name := "Widget", description := "updated"
         price := 120, stock := 4, threshold := 0 }] }

/-- Witness for C9: at the concrete document, both a price edit and a
deletion of the item leave the recorded sale untouched. -/
theorem inventoryEdits_preserve_sales_witness :
    stInvEditedW.sales = stInvW.sales
  ∧ (deleteInventoryItem stInvW "i1").sales = stInvW.sales := by
  have h := inventoryEdits_preserve_sales stInvW "i1" editW
  exact ⟨h.1 stInvEditedW (by decide), h.2⟩

/-! ### C5: `deleteCreditBill` -/

/-- C5: deleting an existing credit bill reduces the owning customer's
`outstandingCredit` by the bill's current `dueAmount`, clamped at a floor
of 0; the bill itself is removed (and only bills with that id are — every
other bill survives); the `sales` and `payments` collections are left
unchanged. -/
theorem deleteCreditBill_correct (st : POSData) (id : String) (bill : CreditBill)
    (hfind : st.creditBills.find? (fun b => b.id == id) = some bill) :
    ((deleteCreditBill st id).customers.find? (fun c => c.id == bill.customerId)
        = (st.customers.find? (fun c => c.id == bill.customerId)).map
            (fun c => { c with outstandingCredit := if c.outstandingCredit - bill.dueAmount < 0 then 0 else c.outstandingCredit - bill.dueAmount }))
  ∧ (∀ q : ℚ, (if q - bill.dueAmount < 0 then (0 : ℚ) else q - bill.dueAmount) = max 0 (q - bill.dueAmount))
  ∧ (deleteCreditBill st id).creditBills = st.creditBills.filter (fun b => b.id != id)
  ∧ bill ∉ (deleteCreditBill st id).creditBills
  ∧ (∀ b ∈ st.creditBills, (b.id == id) = false → b ∈ (deleteCreditBill st id).creditBills)
  ∧ (deleteCreditBill st id).sales = st.sales
  ∧ (deleteCreditBill st id).payments = st.payments := by
  have hbid0 := List.find?_some hfind
  have hbid : (bill.id == id) = true := hbid0
  simp only [deleteCreditBill, hfind]
  refine ⟨?_, ?_, ?_, ?_, ?_, ?_, ?_⟩
  · exact find?_updateFirst_self (fun c => c.id == bill.customerId)
      (fun c => { c with outstandingCredit := if c.outstandingCredit - bill.dueAmount < 0 then 0 else c.outstandingCredit - bill.dueAmount })
      (fun x => rfl) st.customers
  · intro q
    rcases lt_or_le (q - bill.dueAmount) 0 with h | h
    · rw [if_pos h, max_eq_left h.le]
    · rw [if_neg (not_lt.mpr h), max_eq_right h]
  · trivial
  · intro hmem
    have h2 := (List.mem_filter.mp hmem).2
    have h3 : bill.id = id := by simpa using hbid
    simp [h3] at h2
  · intro b hb hbid2
    refine List.mem_filter.mpr ⟨hb, ?_⟩
    have hb2 : (b.id != id) = !(b.id == id) := rfl
    rw [hb2, hbid2]
    rfl
  · trivial
  · trivial

/-- A concrete customer with outstanding credit, for witnesses. -/
def customerW : Customer :=
  { id := "cust1", name := "Alice", address := "addr", tp := "011"
    creditLimit := 1000, outstandingCredit := 150 }

/-- A concrete credit bill of `customerW` with dueAmount 150. -/
def creditBillW : CreditBill :=
  { id := "cb1", billId := "BILL-1", customerId := "cust1"
    totalAmount := 150, paidAmount := 0, dueAmount := 150
    billDate := "2025-01-01", dueDate := "", paymentHistory := [] }

/-- A concrete payment row originating from `saleW`. -/
def paymentW : Payment :=
  { id := "p1", date := "2025-01-01", billId := "BILL-1", amount := 290
    method := "cash", reference := "", chequeDetails := none }

/-- A concrete document with a customer, a credit bill, a sale and a
payment. -/
def stCreditW : POSData :=
  { defaultPOSData with
      customers := [customerW], creditBills := [creditBillW]
      sales := [saleW], payments := [paymentW] }

/-- Witness for C5 at the concrete document: deleting the bill with
dueAmount 150 drops the customer's outstanding credit from 150 to 0,
removes the bill, and the sale and payment survive. -/
theorem deleteCreditBill_correct_witness :
    ((deleteCreditBill stCreditW "cb1").customers.find? (fun c => c.id == creditBillW.customerId)
        = some { customerW with outstandingCredit := 0 })
  ∧ creditBillW ∉ (deleteCreditBill stCreditW "cb1").creditBills
  ∧ (deleteCreditBill stCreditW "cb1").sales = stCreditW.sales
  ∧ (deleteCreditBill stCreditW "cb1").payments = stCreditW.payments := by
  have h := deleteCreditBill_correct stCreditW "cb1" creditBillW (by decide)
  refine ⟨?_, h.2.2.2.1, h.2.2.2.2.2.1, h.2.2.2.2.2.2⟩
  · rw [h.1]
    have h2 : stCreditW.customers.find? (fun c => c.id == creditBillW.customerId)
        = some customerW := by simp [stCreditW, customerW, creditBillW]
    rw [h2, Option.map_some']
    norm_num [customerW, creditBillW]

/-- A concrete document with one cheque, for the C8 witness. -/
def chequeW : Cheque :=
  { id := "c1", billId := "BILL-1", chequeNumber := "000123", bank := "BOC"
    amount := 500, dueDate := "2025-01-01", status := "Pending" }

/-- A second cheque with a different id, for the C8 witness. -/
def chequeW2 : Cheque :=
  { id := "c2", billId := "BILL-2", chequeNumber := "000124", bank := "HNB"
    amount := 700, dueDate := "2025-02-01", status := "Bounced" }

/-- A concrete document holding `chequeW` and `chequeW2`. -/
def stChequeW : POSData :=
  { defaultPOSData with cheques := [chequeW, chequeW2] }

/-- Witness for C8 at a concrete document: setting `c1` to `Claimed`
updates that cheque, twice is the same as once, and the unrelated cheque
`c2` survives untouched. -/
theorem updateChequeStatus_correct_witness :
    ((updateChequeStatus stChequeW "c1" "Claimed").cheques.find? (fun c => c.id == "c1")
        = some { chequeW with status := "Claimed" })
  ∧ updateChequeStatus (updateChequeStatus stChequeW "c1" "Claimed") "c1" "Claimed"
      = updateChequeStatus stChequeW "c1" "Claimed"
  ∧ chequeW2 ∈ (updateChequeStatus stChequeW "c1" "Claimed").cheques := by
  have h := updateChequeStatus_correct stChequeW "c1" "Claimed"
  refine ⟨?_, h.2.1, ?_⟩
  · rw [h.1]; rfl
  · exact h.2.2.2.2.2.2.2.2.2.2 chequeW2 (by simp [stChequeW]) (by decide)

/-! ### C6: tolerant document loading -/

/-- C6 counterexample: loading a stored document in which every
collection is absent does *not* fill `distributionChannels` with `[]` —
it falls back to the default channel list `[mainChannel]`. -/
theorem loadPOSData_channels_counterexample :
    (loadPOSData (some emptyStoredDoc)).distributionChannels = [mainChannel]
  ∧ (loadPOSData (some emptyStoredDoc)).distributionChannels ≠ ([] : List Channel) := by
  refine ⟨rfl, ?_⟩
  rw [show (loadPOSData (some emptyStoredDoc)).distributionChannels = [mainChannel] from rfl]
  simp

/-- C6 (amended): loading a missing document yields `defaultPOSData`;
loading a partial document fills every absent collection with `[]` except
`distributionChannels`, which is filled with the default main-channel
list `[mainChannel]`; a present inventory is kept modulo the threshold
migration, which gives every item with an absent `threshold` the value
0. -/
theorem loadPOSData_fills (d : StoredDoc) :
    (d.inventory = none → (loadPOSData (some d)).inventory = [])
  ∧ (d.customers = none → (loadPOSData (some d)).customers = [])
  ∧ (d.distributionChannels = none → (loadPOSData (some d)).distributionChannels = [mainChannel])
  ∧ (d.sales = none → (loadPOSData (some d)).sales = [])
  ∧ (d.grns = none → (loadPOSData (some d)).grns = [])
  ∧ (d.quotations = none → (loadPOSData (some d)).quotations = [])
  ∧ (d.payments = none → (loadPOSData (some d)).payments = [])
  ∧ (d.creditBills = none → (loadPOSData (some d)).creditBills = [])
  ∧ (d.cheques = none → (loadPOSData (some d)).cheques = [])
  ∧ (∀ its, d.inventory = some its → (loadPOSData (some d)).inventory = its.map migrateItem)
  ∧ (∀ it : StoredInventoryItem, it.threshold = none → (migrateItem it).threshold = 0)
  ∧ loadPOSData none = defaultPOSData := by
  refine ⟨?_, ?_, ?_, ?_, ?_, ?_, ?_, ?_, ?_, ?_, ?_, rfl⟩
  · intro h; simp [loadPOSData, h]
  · intro h; simp [loadPOSData, h]
  · intro h; simp [loadPOSData, h, defaultPOSData]
  · intro h; simp [loadPOSData, h]
  · intro h; simp [loadPOSData, h]
  · intro h; simp [loadPOSData, h]
  · intro h; simp [loadPOSData, h]
  · intro h; simp [loadPOSData, h]
  · intro h; simp [loadPOSData, h]
  · intro its h; simp [loadPOSData, h]
  · intro it h; simp [migrateItem, h]

/-- A stored inventory item whose `threshold` is absent, for the C6
witness. -/
def storedItemW : StoredInventoryItem :=
  { id := "i1", code := "SKU1", name := "Widget", description := ""
    price := 100, stock := 10, threshold := none }

/-- Witness for C6 (amended) at the all-absent stored document and a
threshold-less item. -/
theorem loadPOSData_fills_witness :
    (loadPOSData (some emptyStoredDoc)).inventory = []
  ∧ (loadPOSData (some emptyStoredDoc)).distributionChannels = [mainChannel]
  ∧ (loadPOSData (some emptyStoredDoc)).cheques = []
  ∧ (migrateItem storedItemW).threshold = 0 :=
  ⟨(loadPOSData_fills emptyStoredDoc).1 rfl,
   (loadPOSData_fills emptyStoredDoc).2.2.1 rfl,
   (loadPOSData_fills emptyStoredDoc).2.2.2.2.2.2.2.2.1 rfl,
   (loadPOSData_fills emptyStoredDoc).2.2.2.2.2.2.2.2.2.2.1 storedItemW rfl⟩

/-! ### C7: uniqueness and indestructibility of the main channel -/

/-- C7: in every document state reachable through the
distribution-channel operations, exactly one channel has id `"main"`,
and a delete request for `"main"` is always refused with the state
unchanged. -/
theorem mainChannel_invariant (st : POSData) (h : ChannelReach st) :
    mainCount st = 1 ∧ deleteDistributionChannel st "main" = st := by
  refine ⟨?_, by simp [deleteDistributionChannel]⟩
  induction h with
  | init => decide
  | addChannel st newId nm regNo address hotline logo hr hgen ih =>
    have hne : (newId == "main") = false := by
      refine beq_eq_false_iff_ne.mpr ?_
      intro he
      rw [he] at hgen
      exact absurd hgen (by unfold isGeneratedId; decide)
    simp only [mainCount, addDistributionChannel] at *
    rw [List.filter_append, List.length_append]
    have h1 : List.filter (fun c => c.id == "main")
        [(⟨newId, nm, regNo, address, hotline, logo⟩ : Channel)] = [] := by
      simp [hne]
    rw [h1]
    simpa using ih
  | delChannel st id hr ih =>
    by_cases hid : id = "main"
    · simpa [deleteDistributionChannel, hid] using ih
    · simp only [deleteDistributionChannel, if_neg hid, mainCount]
      rw [List.filter_filter]
      have hpq : ∀ c : Channel, ((c.id == "main") && (c.id != id)) = (c.id == "main") := by
        intro c
        cases hc : c.id == "main" with
        | false => simp
        | true =>
          have hc2 : c.id = "main" := by simpa using hc
          have : (c.id != id) = true := by
            simp [hc2]
            exact fun he => hid he.symm
          simp [this]
      rw [List.filter_congr (fun c _ => hpq c)]
      exact ih
  | reload st hr ih =>
    have hch : (loadPOSData (some (saveDoc st))).distributionChannels
        = st.distributionChannels := by
      simp [loadPOSData, saveDoc]
    simp only [mainCount, hch]
    exact ih

/-! ### Lemmas about `processBill` -/

theorem processBill_some_iff {st : POSData} {cart : List CartLine} {inp : BillInput}
    {st' : POSData} :
    processBill st cart inp = some st'
      ↔ ∃ ctx, validateBill st cart inp = some ctx ∧ st' = buildBillState st cart inp ctx := by
  constructor
  · intro h
    rcases Option.map_eq_some'.mp h with ⟨ctx, hv, hb⟩
    exact ⟨ctx, hv, hb.symm⟩
  · rintro ⟨ctx, hv, rfl⟩
    unfold processBill
    rw [hv]
    rfl

theorem buildBillState_sales (st : POSData) (cart : List CartLine) (inp : BillInput)
    (ctx : BillContext) :
    (buildBillState st cart inp ctx).sales = st.sales ++ [mkSale cart inp ctx] := by
  simp only [buildBillState]
  repeat' split
  all_goals rfl

theorem buildBillState_inventory (st : POSData) (cart : List CartLine) (inp : BillInput)
    (ctx : BillContext) :
    (buildBillState st cart inp ctx).inventory = applyCartToInventory cart st.inventory := by
  simp only [buildBillState]
  repeat' split
  all_goals rfl

theorem buildBillState_payments (st : POSData) (cart : List CartLine) (inp : BillInput)
    (ctx : BillContext) :
    (buildBillState st cart inp ctx).payments
      = st.payments ++ [mkBillPayment inp (grandTotalOf cart inp) ctx.chequeDetails] := by
  simp only [buildBillState]
  repeat' split
  all_goals rfl

theorem buildBillState_customers_credit (st : POSData) (cart : List CartLine)
    (inp : BillInput) (ctx : BillContext) (c : Customer)
    (hm : inp.paymentMethod = "credit") (hc : ctx.selectedCustomer = some c) :
    (buildBillState st cart inp ctx).customers
      = updateFirst (fun x => x.id == c.id)
          (fun x => { x with outstandingCredit := x.outstandingCredit + grandTotalOf cart inp })
          st.customers := by
  simp [buildBillState, hm, hc]

theorem buildBillState_creditBills_credit (st : POSData) (cart : List CartLine)
    (inp : BillInput) (ctx : BillContext) (c : Customer)
    (hm : inp.paymentMethod = "credit") (hc : ctx.selectedCustomer = some c) :
    (buildBillState st cart inp ctx).creditBills
      = st.creditBills ++
          [{ id := inp.creditBillId, billId := inp.billId, customerId := c.id
             totalAmount := grandTotalOf cart inp, paidAmount := 0
             dueAmount := grandTotalOf cart inp, billDate := inp.date, dueDate := ""
             paymentHistory := [] }] := by
  simp [buildBillState, hm, hc]

theorem resolveCustomer_walking (st : POSData) (inp : BillInput)
    (hw : inp.customerType = "walking") :
    resolveCustomer st inp
      = some ({ type := "walking", id := inp.walkingId
                name := if inp.walkingName = "" then "Walking Customer" else inp.walkingName
                address := inp.walkingAddress, tp := inp.walkingTp }, none) := by
  unfold resolveCustomer
  rw [if_pos hw]

theorem resolveCustomer_some_inv (st : POSData) (inp : BillInput)
    (snap : CustomerSnapshot) (c : Customer)
    (h : resolveCustomer st inp = some (snap, some c)) :
    inp.customerType ≠ "walking"
  ∧ st.customers.find? (fun x => x.id == inp.registeredCustomerId) = some c := by
  by_cases hw : inp.customerType = "walking"
  · rw [resolveCustomer_walking st inp hw] at h
    simp at h
  · refine ⟨hw, ?_⟩
    unfold resolveCustomer at h
    rw [if_neg hw] at h
    by_cases hr : inp.registeredCustomerId = ""
    · rw [if_pos hr] at h; simp at h
    · rw [if_neg hr] at h
      cases hf : st.customers.find? (fun x => x.id == inp.registeredCustomerId) with
      | none => rw [hf] at h; simp at h
      | some c2 =>
        rw [hf] at h
        simp only [Option.some.injEq, Prod.mk.injEq] at h
        rw [h.2]

theorem validateBill_credit_walking (st : POSData) (cart : List CartLine) (inp : BillInput)
    (hm : inp.paymentMethod = "credit") (hw : inp.customerType = "walking") :
    validateBill st cart inp = none := by
  by_cases he : cart.isEmpty
  · simp [validateBill, he]
  · simp [validateBill, he, resolveCustomer_walking st inp hw, hm]

theorem validateBill_credit_overlimit (st : POSData) (cart : List CartLine) (inp : BillInput)
    (c : Customer) (hm : inp.paymentMethod = "credit")
    (hfind : st.customers.find? (fun x => x.id == inp.registeredCustomerId) = some c)
    (hover : c.outstandingCredit + grandTotalOf cart inp > c.creditLimit)
    (hw : inp.customerType ≠ "walking") :
    validateBill st cart inp = none := by
  by_cases he : cart.isEmpty
  · simp [validateBill, he]
  · by_cases hr : inp.registeredCustomerId = ""
    · simp [validateBill, he, resolveCustomer, hw, hr]
    · have hres : resolveCustomer st inp
          = some ({ type := "registered", id := c.id, name := c.name
                    address := c.address, tp := c.tp }, some c) := by
        simp [resolveCustomer, hw, hr, hfind]
      simp [validateBill, he, hres, hm, hover]

theorem validateBill_credit_some_inv (st : POSData) (cart : List CartLine) (inp : BillInput)
    (ctx : BillContext) (hm : inp.paymentMethod = "credit")
    (h : validateBill st cart inp = some ctx) :
    ∃ c, st.customers.find? (fun x => x.id == inp.registeredCustomerId) = some c
      ∧ ctx.selectedCustomer = some c
      ∧ c.outstandingCredit + grandTotalOf cart inp ≤ c.creditLimit := by
  cases he : cart.isEmpty with
  | true => simp [validateBill, he] at h
  | false =>
    cases hres : resolveCustomer st inp with
    | none => simp [validateBill, he, hres] at h
    | some pair =>
      obtain ⟨snap, sel⟩ := pair
      cases sel with
      | none => simp [validateBill, he, hres, hm] at h
      | some c =>
        by_cases hover : c.outstandingCredit + grandTotalOf cart inp > c.creditLimit
        · simp [validateBill, he, hres, hm, hover] at h
        · have hres2 := resolveCustomer_some_inv st inp snap c hres
          refine ⟨c, hres2.2, ?_, not_lt.mp hover⟩
          have h2 : (checkCheque inp).map (fun cd => (⟨snap, some c, cd⟩ : BillContext))
              = some ctx := by
            rw [← h]
            simp [validateBill, he, hres, hm, hover]
          rcases Option.map_eq_some'.mp h2 with ⟨cd, hcd, hctx⟩
          rw [← hctx]

/-! ### C3: credit sales -/

/-- C3: for a credit sale, a walking customer is always refused
(`processBill` returns `none`, i.e. zero side effects), an over-limit
registered customer is always refused, and a successful credit sale
raises the customer's `outstandingCredit` by exactly the grand total and
appends a credit bill with `paidAmount = 0` and
`dueAmount = grandTotal`. -/
theorem creditSale_correct (st : POSData) (cart : List CartLine) (inp : BillInput)
    (hm : inp.paymentMethod = "credit") :
    (inp.customerType = "walking" → processBill st cart inp = none)
  ∧ (∀ c, st.customers.find? (fun x => x.id == inp.registeredCustomerId) = some c →
       c.outstandingCredit + grandTotalOf cart inp > c.creditLimit →
       processBill st cart inp = none)
  ∧ (∀ st', processBill st cart inp = some st' →
       ∃ c, st.customers.find? (fun x => x.id == inp.registeredCustomerId) = some c
         ∧ c.outstandingCredit + grandTotalOf cart inp ≤ c.creditLimit
         ∧ st'.customers.find? (fun x => x.id == c.id)
             = some { c with outstandingCredit := c.outstandingCredit + grandTotalOf cart inp }
         ∧ st'.creditBills = st.creditBills ++
             [{ id := inp.creditBillId, billId := inp.billId, customerId := c.id
                totalAmount := grandTotalOf cart inp, paidAmount := 0
                dueAmount := grandTotalOf cart inp, billDate := inp.date, dueDate := ""
                paymentHistory := [] }]) := by
  refine ⟨?_, ?_, ?_⟩
  · intro hw
    unfold processBill
    rw [validateBill_credit_walking st cart inp hm hw]
    rfl
  · intro c hfind hover
    by_cases hw : inp.customerType = "walking"
    · unfold processBill
      rw [validateBill_credit_walking st cart inp hm hw]
      rfl
    · unfold processBill
      rw [validateBill_credit_overlimit st cart inp c hm hfind hover hw]
      rfl
  · intro st' hst
    rcases processBill_some_iff.mp hst with ⟨ctx, hv, rfl⟩
    rcases validateBill_credit_some_inv st cart inp ctx hm hv with ⟨c, hfind, hsel, hle⟩
    refine ⟨c, hfind, hle, ?_, ?_⟩
    · rw [buildBillState_customers_credit st cart inp ctx c hm hsel,
          find?_updateFirst_self (fun x => x.id == c.id)
            (fun x => { x with outstandingCredit := x.outstandingCredit + grandTotalOf cart inp })
            (fun x => rfl) st.customers]
      have hcid0 := List.find?_some hfind
      have hcid : c.id = inp.registeredCustomerId := by simpa using hcid0
      have hfind2 : st.customers.find? (fun x => x.id == c.id) = some c := by
        rw [hcid]
        exact hfind
      rw [hfind2]
      rfl
    · exact buildBillState_creditBills_credit st cart inp ctx c hm hsel

/-- A registered customer over whose limit the C3 witness sale goes
(limit 1000, outstanding 800). -/
def custC3 : Customer :=
  { id := "cust2", name := "Bob", address := "", tp := ""
    creditLimit := 1000, outstandingCredit := 800 }

/-- A registered customer with room on the limit (limit 1000,
outstanding 100). -/
def custC3b : Customer :=
  { id := "cust3", name := "Cara", address := "", tp := ""
    creditLimit := 1000, outstandingCredit := 100 }

/-- Document with the over-limit customer. -/
def stC3 : POSData := { defaultPOSData with customers := [custC3] }

/-- Document with the in-limit customer. -/
def stC3b : POSData := { defaultPOSData with customers := [custC3b] }

/-- A one-line cart worth 300. -/
def cartC3 : List CartLine :=
  [{ id := "m1", code := "M", name := "Manual", price := 300, qty := 1 }]

/-- Credit-sale inputs selecting `custC3`. -/
def inpC3 : BillInput :=
  { billId := "BILL-3", date := "2025-02-01", time := "09:00:00"
    customerType := "registered", walkingId := "w0", walkingName := ""
    walkingAddress := "", walkingTp := ""
    registeredCustomerId := "cust2", channelId := "main"
    discountType := "lkr", discountValueInput := some 0
    paymentMethod := "credit", paymentRef := ""
    chequeNumber := "", chequeBank := "", chequeDueDate := ""
    paymentId := "p3", creditBillId := "cb3", chequeId := "ch3" }

/-- Credit-sale inputs selecting `custC3b`. -/
def inpC3b : BillInput := { inpC3 with registeredCustomerId := "cust3" }

/-- Witness for C3: the 300-rupee credit sale is refused for the
over-limit customer (800 + 300 > 1000) and goes through for the in-limit
one, raising their outstanding credit by the grand total and appending
one credit bill. -/
theorem creditSale_correct_witness :
    processBill stC3 cartC3 inpC3 = none
  ∧ ∃ st', processBill stC3b cartC3 inpC3b = some st'
      ∧ st'.customers.find? (fun x => x.id == custC3b.id)
          = some { custC3b with outstandingCredit :=
                     custC3b.outstandingCredit + grandTotalOf cartC3 inpC3b }
      ∧ st'.creditBills.length = stC3b.creditBills.length + 1 := by
  have hg : grandTotalOf cartC3 inpC3 = 300 := by
    norm_num [grandTotalOf, calculateGrandTotal, discountAmountCalc, effectiveDiscountValue,
      cartSubtotal, cartC3, inpC3, min_def]
  have hgb : grandTotalOf cartC3 inpC3b = 300 := by
    norm_num [grandTotalOf, calculateGrandTotal, discountAmountCalc, effectiveDiscountValue,
      cartSubtotal, cartC3, inpC3b, inpC3, min_def]
  constructor
  · refine (creditSale_correct stC3 cartC3 inpC3 rfl).2.1 custC3 (by decide) ?_
    rw [hg]
    norm_num [custC3]
  · have hv : validateBill stC3b cartC3 inpC3b
        = some ⟨{ type := "registered", id := "cust3", name := "Cara"
                  address := "", tp := "" }, some custC3b, none⟩ := by
      have hnot : ¬ (custC3b.outstandingCredit + grandTotalOf cartC3 inpC3b
          > custC3b.creditLimit) := by
        rw [hgb]
        norm_num [custC3b]
      have hres : resolveCustomer stC3b inpC3b
          = some ({ type := "registered", id := "cust3", name := "Cara"
                    address := "", tp := "" }, some custC3b) := by
        simp [resolveCustomer, inpC3b, inpC3, stC3b, custC3b]
      have hch : checkCheque inpC3b = some none := by
        simp [checkCheque, inpC3b, inpC3]
      simp [validateBill, cartC3, hres, hnot, hch]
      intro _
      have h9 := not_lt.mp hnot
      simpa [cartC3] using h9
    have hproc : processBill stC3b cartC3 inpC3b
        = some (buildBillState stC3b cartC3 inpC3b
            ⟨{ type := "registered", id := "cust3", name := "Cara"
               address := "", tp := "" }, some custC3b, none⟩) := by
      unfold processBill
      rw [hv]
      rfl
    obtain ⟨c, hfind, hle, hcust, hbills⟩ :=
      (creditSale_correct stC3b cartC3 inpC3b rfl).2.2 _ hproc
    have hc : c = custC3b := by
      have hfc : stC3b.customers.find? (fun x => x.id == inpC3b.registeredCustomerId)
          = some custC3b := by decide
      rw [hfc] at hfind
      injection hfind.symm
    subst hc
    refine ⟨_, hproc, hcust, ?_⟩
    rw [hbills]
    simp

/-! ### C4: discounts -/

theorem discountAmountCalc_le_subtotal (s : ℚ) (t : String) (v : Option ℚ) :
    discountAmountCalc s t v ≤ s := min_le_right _ _

/-- C4 (amended): the computed discount is `min(subtotal, value)` for the
flat (`"lkr"`) type and `min(subtotal, subtotal*value/100)` otherwise,
where a negative or `NaN` discount input is coerced to 0 (no discount)
rather than rejected; every recorded sale satisfies
`grandTotal = subtotal - discountAmount`, `discountAmount ≤ subtotal` and
`grandTotal ≥ 0`. -/
theorem discount_correct (st : POSData) (cart : List CartLine) (inp : BillInput) :
    (inp.discountType = "lkr" →
       discountAmountCalc (cartSubtotal cart) inp.discountType inp.discountValueInput
         = min (cartSubtotal cart) (effectiveDiscountValue inp.discountValueInput))
  ∧ (inp.discountType ≠ "lkr" →
       discountAmountCalc (cartSubtotal cart) inp.discountType inp.discountValueInput
         = min (cartSubtotal cart) (cartSubtotal cart * effectiveDiscountValue inp.discountValueInput / 100))
  ∧ (∀ x, inp.discountValueInput = some x → 0 ≤ x →
       effectiveDiscountValue inp.discountValueInput = x)
  ∧ (inp.discountValueInput = none → effectiveDiscountValue inp.discountValueInput = 0)
  ∧ (∀ x, inp.discountValueInput = some x → x < 0 →
       effectiveDiscountValue inp.discountValueInput = 0)
  ∧ (∀ st', processBill st cart inp = some st' →
       ∃ s : Sale, st'.sales = st.sales ++ [s]
         ∧ s.subtotal = cartSubtotal cart
         ∧ s.discountAmount
             = discountAmountCalc (cartSubtotal cart) inp.discountType inp.discountValueInput
         ∧ s.grandTotal = s.subtotal - s.discountAmount
         ∧ s.discountAmount ≤ s.subtotal
         ∧ 0 ≤ s.grandTotal) := by
  refine ⟨?_, ?_, ?_, ?_, ?_, ?_⟩
  · intro h
    unfold discountAmountCalc
    rw [if_pos h, min_comm]
  · intro h
    unfold discountAmountCalc
    rw [if_neg h, min_comm]
  · intro x hx h0
    simp only [effectiveDiscountValue, hx]
    rw [if_neg (not_lt.mpr h0)]
  · intro h
    simp [effectiveDiscountValue, h]
  · intro x hx hneg
    simp [effectiveDiscountValue, hx, hneg]
  · intro st' hst
    rcases processBill_some_iff.mp hst with ⟨ctx, hv, rfl⟩
    refine ⟨mkSale cart inp ctx, buildBillState_sales st cart inp ctx, rfl, ?_, ?_, ?_, ?_⟩
    · show cartSubtotal cart - grandTotalOf cart inp = _
      unfold grandTotalOf calculateGrandTotal
      ring
    · show grandTotalOf cart inp = cartSubtotal cart - (cartSubtotal cart - grandTotalOf cart inp)
      ring
    · show cartSubtotal cart - grandTotalOf cart inp ≤ cartSubtotal cart
      unfold grandTotalOf calculateGrandTotal
      linarith [discountAmountCalc_le_subtotal (cartSubtotal cart) inp.discountType
        inp.discountValueInput]
    · show (0 : ℚ) ≤ grandTotalOf cart inp
      unfold grandTotalOf calculateGrandTotal
      linarith [discountAmountCalc_le_subtotal (cartSubtotal cart) inp.discountType
        inp.discountValueInput]

/-- A one-line cash cart worth 100, for the C4 instances. -/
def cartC4 : List CartLine :=
  [{ id := "x1", code := "C", name := "Thing", price := 100, qty := 1 }]

/-- Cash walking-customer inputs carrying a *negative* discount value. -/
def inpC4 : BillInput :=
  { inpC3 with
      customerType := "walking", paymentMethod := "cash"
      discountValueInput := some (-5), registeredCustomerId := ""
      billId := "BILL-4", paymentId := "p4", creditBillId := "cb4", chequeId := "ch4" }

/-- The validation context the C4 inputs produce. -/
def ctxC4 : BillContext :=
  ⟨{ type := "walking", id := "w0", name := "Walking Customer"
     address := "", tp := "" }, none, none⟩

theorem validateBill_C4 : validateBill defaultPOSData cartC4 inpC4 = some ctxC4 := by
  have hres : resolveCustomer defaultPOSData inpC4
      = some (({ type := "walking", id := "w0", name := "Walking Customer"
                 address := "", tp := "" } : CustomerSnapshot), none) := by
    rw [resolveCustomer_walking defaultPOSData inpC4 rfl]
    simp [inpC4, inpC3]
  have hch : checkCheque inpC4 = some none := by
    simp [checkCheque, inpC4, inpC3]
  have hm : ¬ (inpC4.paymentMethod = "credit") := by
    simp [inpC4, inpC3]
  simp [validateBill, cartC4, hres, hch, hm, ctxC4]

theorem processBill_C4 :
    processBill defaultPOSData cartC4 inpC4
      = some (buildBillState defaultPOSData cartC4 inpC4 ctxC4) := by
  unfold processBill
  rw [validateBill_C4]
  rfl

/-- C4 counterexample: a sale with discount value −5 is *not* rejected —
`processBill` succeeds — because `calculateGrandTotal` coerces a negative
or non-numeric discount input to 0 and proceeds. -/
theorem discountRejection_counterexample :
    processBill defaultPOSData cartC4 inpC4 ≠ none
  ∧ effectiveDiscountValue (some (-5 : ℚ)) = 0
  ∧ discountAmountCalc 100 "lkr" (some (-5 : ℚ)) = 0 := by
  refine ⟨?_, ?_, ?_⟩
  · rw [processBill_C4]
    simp
  · norm_num [effectiveDiscountValue]
  · norm_num [discountAmountCalc, effectiveDiscountValue, min_def]

/-- Witness for C4 (amended) at the concrete negative-discount sale. -/
theorem discount_correct_witness :
    (inpC4.discountType = "lkr"
      ∧ discountAmountCalc (cartSubtotal cartC4) inpC4.discountType inpC4.discountValueInput
          = min (cartSubtotal cartC4) (effectiveDiscountValue inpC4.discountValueInput))
  ∧ effectiveDiscountValue inpC4.discountValueInput = 0
  ∧ ∃ s : Sale, (buildBillState defaultPOSData cartC4 inpC4 ctxC4).sales
        = defaultPOSData.sales ++ [s]
      ∧ s.grandTotal = s.subtotal - s.discountAmount
      ∧ s.discountAmount ≤ s.subtotal := by
  have h := discount_correct defaultPOSData cartC4 inpC4
  refine ⟨⟨rfl, h.1 rfl⟩, h.2.2.2.2.1 (-5) (by simp [inpC4, inpC3]) (by norm_num), ?_⟩
  obtain ⟨s, h1, h2, h3, h4, h5, h6⟩ := h.2.2.2.2.2 _ processBill_C4
  exact ⟨s, h1, h4, h5⟩

/-! ### Lemmas about the cart and the inventory fold -/

/-- The quantity the cart already holds for a given item id (0 when the
id has no cart line) — the quantity `addItemToCart` checks against the
stock. -/
def cartQtyOf (cart : List CartLine) (id : String) : ℚ :=
  match cart.find? (fun c => c.id == id) with
  | some c => c.qty
  | none => 0

theorem addItemToCart_rejects (inv : List InventoryItem) (item : Item) (q : ℚ)
    (it : InventoryItem) (hfind : findItem inv item.id = some it) :
    ∀ cart : List CartLine, cartQtyOf cart item.id + q > it.stock →
      addItemToCart inv item q cart = none := by
  intro cart
  induction cart with
  | nil =>
    intro hover
    have h2 : q > it.stock := by simpa [cartQtyOf] using hover
    simp [addItemToCart, hfind, h2]
  | cons c rest ih =>
    intro hover
    cases hc : c.id == item.id with
    | true =>
      have hfc : List.find? (fun x => x.id == item.id) (c :: rest) = some c :=
        List.find?_cons_of_pos _ hc
      have hq : cartQtyOf (c :: rest) item.id = c.qty := by
        unfold cartQtyOf
        rw [hfc]
      rw [hq] at hover
      simp [addItemToCart, hc, hfind, hover]
    | false =>
      have hfc : List.find? (fun x => x.id == item.id) (c :: rest)
          = List.find? (fun x => x.id == item.id) rest :=
        List.find?_cons_of_neg _ (by simp [hc])
      have hq : cartQtyOf (c :: rest) item.id = cartQtyOf rest item.id := by
        unfold cartQtyOf
        rw [hfc]
      rw [hq] at hover
      simp [addItemToCart, hc, ih hover]

theorem addItemToCart_no_match_some (inv : List InventoryItem) (item : Item) (q : ℚ)
    (hfind : findItem inv item.id = none) :
    ∀ cart : List CartLine, (addItemToCart inv item q cart).isSome = true := by
  intro cart
  induction cart with
  | nil => simp [addItemToCart, hfind]
  | cons c rest ih =>
    cases hc : c.id == item.id with
    | true => simp [addItemToCart, hc, hfind]
    | false => simpa [addItemToCart, hc] using ih

theorem addItemToCart_sound (inv : List InventoryItem) (item : Item) (q : ℚ) :
    ∀ cart cart', addItemToCart inv item q cart = some cart' →
      ∀ line ∈ cart', line ∈ cart
        ∨ (line.id = item.id ∧ ∀ it, findItem inv item.id = some it → line.qty ≤ it.stock) := by
  intro cart
  induction cart with
  | nil =>
    intro cart' h line hline
    cases hf : findItem inv item.id with
    | some it =>
      simp only [addItemToCart, hf] at h
      by_cases hq : q > it.stock
      · rw [if_pos hq] at h; cases h
      · rw [if_neg hq] at h
        injection h with h2
        rw [← h2] at hline
        simp only [List.mem_singleton] at hline
        right
        refine ⟨by rw [hline], ?_⟩
        intro it2 hit2
        injection hit2 with h3
        rw [hline, ← h3]
        exact not_lt.mp hq
    | none =>
      simp only [addItemToCart, hf] at h
      injection h with h2
      rw [← h2] at hline
      simp only [List.mem_singleton] at hline
      right
      refine ⟨by rw [hline], ?_⟩
      intro it2 hit2
      exact Option.noConfusion hit2
  | cons c rest ih =>
    intro cart' h line hline
    cases hc : c.id == item.id with
    | true =>
      have hcid : c.id = item.id := by simpa using hc
      cases hf : findItem inv item.id with
      | some it =>
        simp only [addItemToCart, hc, if_pos rfl, hf] at h
        by_cases hq : c.qty + q > it.stock
        · rw [if_pos hq] at h; cases h
        · rw [if_neg hq] at h
          injection h with h2
          rw [← h2] at hline
          rcases List.mem_cons.mp hline with hl | hl
          · right
            refine ⟨by rw [hl]; exact hcid, ?_⟩
            intro it2 hit2
            injection hit2 with h3
            rw [hl, ← h3]
            exact not_lt.mp hq
          · left
            exact List.mem_cons_of_mem _ hl
      | none =>
        simp only [addItemToCart, hc, if_pos rfl, hf] at h
        injection h with h2
        rw [← h2] at hline
        rcases List.mem_cons.mp hline with hl | hl
        · right
          refine ⟨by rw [hl]; exact hcid, ?_⟩
          intro it2 hit2
          exact Option.noConfusion hit2
        · left
          exact List.mem_cons_of_mem _ hl
    | false =>
      have h2 : (addItemToCart inv item q rest).map (c :: ·) = some cart' := by
        simpa [addItemToCart, hc] using h
      rcases Option.map_eq_some'.mp h2 with ⟨rest', hrest, hcart⟩
      rw [← hcart] at hline
      rcases List.mem_cons.mp hline with hl | hl
      · left
        rw [hl]
        exact List.mem_cons_self _ _
      · rcases ih rest' hrest line hl with h3 | h3
        · left
          exact List.mem_cons_of_mem _ h3
        · right
          exact h3

theorem addItemToCart_ids (inv : List InventoryItem) (item : Item) (q : ℚ) :
    ∀ cart cart', addItemToCart inv item q cart = some cart' →
      cart'.map CartLine.id = cart.map CartLine.id
      ∨ (cart'.map CartLine.id = cart.map CartLine.id ++ [item.id]
         ∧ item.id ∉ cart.map CartLine.id) := by
  intro cart
  induction cart with
  | nil =>
    intro cart' h
    cases hf : findItem inv item.id with
    | some it =>
      simp only [addItemToCart, hf] at h
      by_cases hq : q > it.stock
      · rw [if_pos hq] at h; cases h
      · rw [if_neg hq] at h
        injection h with h2
        right
        rw [← h2]
        simp
    | none =>
      simp only [addItemToCart, hf] at h
      injection h with h2
      right
      rw [← h2]
      simp
  | cons c rest ih =>
    intro cart' h
    cases hc : c.id == item.id with
    | true =>
      have hdone : ∀ cc, cc = { c with qty := c.qty + q } :: rest →
          cc.map CartLine.id = (c :: rest).map CartLine.id ∨
          (cc.map CartLine.id = (c :: rest).map CartLine.id ++ [item.id]
           ∧ item.id ∉ (c :: rest).map CartLine.id) := by
        intro cc hcc
        left
        rw [hcc]
        rfl
      cases hf : findItem inv item.id with
      | some it =>
        simp only [addItemToCart, hc, if_pos rfl, hf] at h
        by_cases hq : c.qty + q > it.stock
        · rw [if_pos hq] at h; cases h
        · rw [if_neg hq] at h
          injection h with h2
          exact hdone cart' h2.symm
      | none =>
        simp only [addItemToCart, hc, if_pos rfl, hf] at h
        injection h with h2
        exact hdone cart' h2.symm
    | false =>
      have hcne : c.id ≠ item.id := by simpa using hc
      have h2 : (addItemToCart inv item q rest).map (c :: ·) = some cart' := by
        simpa [addItemToCart, hc] using h
      rcases Option.map_eq_some'.mp h2 with ⟨rest', hrest, hcart⟩
      rcases ih rest' hrest with h3 | ⟨h3, h4⟩
      · left
        rw [← hcart, List.map_cons, h3]
        rfl
      · right
        constructor
        · rw [← hcart, List.map_cons, h3]
          rfl
        · intro hmem
          rw [List.map_cons] at hmem
          rcases List.mem_cons.mp hmem with h5 | h5
          · exact hcne h5.symm
          · exact h4 h5

theorem cartBuilt_ids_nodup (inv : List InventoryItem) :
    ∀ cart, CartBuilt inv cart → (cart.map CartLine.id).Nodup := by
  intro cart h
  induction h with
  | nil => simp
  | add cart cart' item quantity hb hadd ih =>
    rcases addItemToCart_ids inv item quantity cart cart' hadd with h1 | ⟨h1, h2⟩
    · rw [h1]; exact ih
    · rw [h1, List.nodup_append]
      exact ⟨ih, List.nodup_singleton _, by simpa using h2⟩

theorem cartBuilt_qty_le_stock (inv : List InventoryItem) :
    ∀ cart, CartBuilt inv cart →
      ∀ line ∈ cart, ∀ it, findItem inv line.id = some it → line.qty ≤ it.stock := by
  intro cart h
  induction h with
  | nil =>
    intro line hl
    exact absurd hl (by simp)
  | add cart cart' item quantity hb hadd ih =>
    intro line hl it hit
    rcases addItemToCart_sound inv item quantity cart cart' hadd line hl with h1 | ⟨h1, h2⟩
    · exact ih line h1 it hit
    · refine h2 it ?_
      rw [← h1]
      exact hit

theorem mem_updateFirst {α : Type} (p : α → Bool) (f : α → α) :
    ∀ (l : List α) (y : α), y ∈ updateFirst p f l → y ∈ l ∨ ∃ x ∈ l, y = f x := by
  intro l
  induction l with
  | nil =>
    intro y hy
    exact absurd hy (by simp [updateFirst])
  | cons x xs ih =>
    intro y hy
    cases hx : p x with
    | true =>
      rw [updateFirst_cons_pos _ _ _ _ hx] at hy
      rcases List.mem_cons.mp hy with h | h
      · right
        exact ⟨x, List.mem_cons_self _ _, h⟩
      · left
        exact List.mem_cons_of_mem _ h
    | false =>
      rw [updateFirst_cons_neg _ _ _ _ hx] at hy
      rcases List.mem_cons.mp hy with h | h
      · left
        rw [h]
        exact List.mem_cons_self _ _
      · rcases ih y h with h2 | ⟨x2, hx2, hy2⟩
        · left
          exact List.mem_cons_of_mem _ h2
        · right
          exact ⟨x2, List.mem_cons_of_mem _ hx2, hy2⟩

theorem find?_updateFirst_none_preserved {α : Type} (p q : α → Bool) (f : α → α)
    (hqf : ∀ x, q (f x) = q x) (l : List α) (h : l.find? q = none) :
    (updateFirst p f l).find? q = none := by
  rw [List.find?_eq_none] at h ⊢
  intro y hy
  rcases mem_updateFirst p f l y hy with h2 | ⟨x, hx, hyx⟩
  · exact h y h2
  · rw [hyx]
    intro hq
    rw [hqf] at hq
    exact h x hx hq

theorem applyCart_find_of_not_mem :
    ∀ (cart : List CartLine) (inv : List InventoryItem) (a : String),
      (∀ l ∈ cart, l.id ≠ a) →
      findItem (applyCartToInventory cart inv) a = findItem inv a := by
  intro cart
  induction cart with
  | nil =>
    intro inv a _
    rfl
  | cons l rest ih =>
    intro inv a ha
    have hstep : applyCartToInventory (l :: rest) inv
        = applyCartToInventory rest
            (updateFirst (fun i => i.id == l.id)
              (fun i => { i with stock := i.stock - l.qty }) inv) := rfl
    rw [hstep, ih _ a (fun x hx => ha x (List.mem_cons_of_mem _ hx))]
    refine find?_updateFirst_of_disjoint (fun i => i.id == l.id) (fun i => i.id == a)
      (fun i => { i with stock := i.stock - l.qty }) (fun x hx => ?_) (fun x => rfl) inv
    have hxl : x.id = l.id := by simpa using hx
    show (x.id == a) = false
    rw [hxl]
    exact beq_eq_false_iff_ne.mpr (ha l (List.mem_cons_self _ _))

theorem applyCart_find_mem :
    ∀ (cart : List CartLine), (cart.map CartLine.id).Nodup →
      ∀ (inv : List InventoryItem) (line : CartLine), line ∈ cart →
        findItem (applyCartToInventory cart inv) line.id
          = (findItem inv line.id).map (fun i => { i with stock := i.stock - line.qty }) := by
  intro cart
  induction cart with
  | nil =>
    intro _ inv line hl
    exact absurd hl (by simp)
  | cons l rest ih =>
    intro hnd inv line hl
    have hnd2 : (rest.map CartLine.id).Nodup := (List.nodup_cons.mp (by simpa using hnd)).2
    have hlnotin : l.id ∉ rest.map CartLine.id := (List.nodup_cons.mp (by simpa using hnd)).1
    have hstep : applyCartToInventory (l :: rest) inv
        = applyCartToInventory rest
            (updateFirst (fun i => i.id == l.id)
              (fun i => { i with stock := i.stock - l.qty }) inv) := rfl
    rcases List.mem_cons.mp hl with h | h
    · subst h
      rw [hstep]
      rw [applyCart_find_of_not_mem rest _ line.id
        (fun x hx heq => hlnotin (heq ▸ List.mem_map_of_mem _ hx))]
      exact find?_updateFirst_self (fun i => i.id == line.id)
        (fun i => { i with stock := i.stock - line.qty }) (fun x => rfl) inv
    · have hne : line.id ≠ l.id := by
        intro he
        apply hlnotin
        rw [← he]
        exact List.mem_map_of_mem _ h
      rw [hstep, ih hnd2 _ line h]
      congr 1
      refine find?_updateFirst_of_disjoint (fun i => i.id == l.id) (fun i => i.id == line.id)
        (fun i => { i with stock := i.stock - l.qty }) (fun x hx => ?_) (fun x => rfl) inv
      have hxl : x.id = l.id := by simpa using hx
      show (x.id == line.id) = false
      rw [hxl]
      exact beq_eq_false_iff_ne.mpr (Ne.symm hne)

theorem applyCart_cons_no_match (l : CartLine) (rest : List CartLine)
    (inv : List InventoryItem) (h : findItem inv l.id = none) :
    applyCartToInventory (l :: rest) inv = applyCartToInventory rest inv := by
  show applyCartToInventory rest (updateFirst _ _ inv) = _
  rw [updateFirst_of_find?_none _ _ inv h]

/-! ### C1: stock discipline of sales -/

/-- C1: over the carts the billing screen can build (`CartBuilt`),
`addItemToCart` rejects a line whose accumulated quantity would exceed a
live inventory item's stock (leaving cart and inventory untouched), a
line with no matching inventory item is never rejected for stock, every
matched line of a built cart satisfies `qty ≤ stock`, and a processed
sale decrements each matched item's stock by exactly the line quantity
while items not referenced by any cart line keep their stock. -/
theorem sale_stock_correct (st : POSData) (cart : List CartLine) (inp : BillInput)
    (hbuilt : CartBuilt st.inventory cart) :
    (∀ (item : Item) (q : ℚ) (it : InventoryItem),
        findItem st.inventory item.id = some it →
        cartQtyOf cart item.id + q > it.stock →
        addItemToCart st.inventory item q cart = none)
  ∧ (∀ (item : Item) (q : ℚ), findItem st.inventory item.id = none →
        (addItemToCart st.inventory item q cart).isSome = true)
  ∧ (∀ line ∈ cart, ∀ it, findItem st.inventory line.id = some it → line.qty ≤ it.stock)
  ∧ (∀ st', processBill st cart inp = some st' →
       (∀ line ∈ cart, ∀ it, findItem st.inventory line.id = some it →
           findItem st'.inventory line.id = some { it with stock := it.stock - line.qty })
     ∧ (∀ a : String, (∀ line ∈ cart, line.id ≠ a) →
           findItem st'.inventory a = findItem st.inventory a)) := by
  refine ⟨?_, ?_, ?_, ?_⟩
  · intro item q it hf hover
    exact addItemToCart_rejects st.inventory item q it hf cart hover
  · intro item q hf
    exact addItemToCart_no_match_some st.inventory item q hf cart
  · exact cartBuilt_qty_le_stock st.inventory cart hbuilt
  · intro st' hst
    rcases processBill_some_iff.mp hst with ⟨ctx, hv, rfl⟩
    constructor
    · intro line hl it hit
      rw [buildBillState_inventory,
          applyCart_find_mem cart (cartBuilt_ids_nodup st.inventory cart hbuilt)
            st.inventory line hl, hit]
      rfl
    · intro a ha
      rw [buildBillState_inventory]
      exact applyCart_find_of_not_mem cart st.inventory a ha

/-- The cart line selling 3 units of `itemW`. -/
def lineC1 : CartLine := { id := "i1", code := "SKU1", name := "Widget", price := 100, qty := 3 }

/-- The one-line cart selling 3 of `itemW`. -/
def cartC1 : List CartLine := [lineC1]

/-- The `addItemToCart` item argument corresponding to `itemW`. -/
def itemC1 : Item := { id := "i1", code := "SKU1", name := "Widget", price := 100 }

/-- Cash walking-customer inputs for the C1 processed sale. -/
def inpC1 : BillInput :=
  { inpC4 with
      discountValueInput := some 0, billId := "BILL-5"
      paymentId := "p5", creditBillId := "cb5", chequeId := "ch5" }

theorem cartC1_built : CartBuilt stInvW.inventory cartC1 := by
  refine CartBuilt.add [] cartC1 itemC1 3 CartBuilt.nil ?_
  have hf : findItem stInvW.inventory "i1" = some itemW := by decide
  have hq : ¬ (itemW.stock < (3 : ℚ)) := by norm_num [itemW]
  simp [addItemToCart, hf, hq, cartC1, lineC1, itemC1]

theorem validateBill_C1 : validateBill stInvW cartC1 inpC1 = some ctxC4 := by
  have hres : resolveCustomer stInvW inpC1
      = some (({ type := "walking", id := "w0", name := "Walking Customer"
                 address := "", tp := "" } : CustomerSnapshot), none) := by
    rw [resolveCustomer_walking stInvW inpC1 rfl]
    simp [inpC1, inpC4, inpC3]
  have hch : checkCheque inpC1 = some none := by
    simp [checkCheque, inpC1, inpC4, inpC3]
  have hm : ¬ (inpC1.paymentMethod = "credit") := by
    simp [inpC1, inpC4, inpC3]
  simp [validateBill, cartC1, hres, hch, hm, ctxC4]

theorem processBill_C1 :
    processBill stInvW cartC1 inpC1
      = some (buildBillState stInvW cartC1 inpC1 ctxC4) := by
  unfold processBill
  rw [validateBill_C1]
  rfl

/-- Witness for C1 at the concrete document: with stock 10 and 3 already
in the cart, asking for 8 more is rejected; the processed sale leaves the
item with stock `10 - 3`. -/
theorem sale_stock_correct_witness :
    addItemToCart stInvW.inventory itemC1 8 cartC1 = none
  ∧ (∀ it, findItem stInvW.inventory lineC1.id = some it → lineC1.qty ≤ it.stock)
  ∧ findItem (buildBillState stInvW cartC1 inpC1 ctxC4).inventory lineC1.id
      = some { itemW with stock := itemW.stock - lineC1.qty } := by
  have h := sale_stock_correct stInvW cartC1 inpC1 cartC1_built
  refine ⟨?_, ?_, ?_⟩
  · refine h.1 itemC1 8 itemW (by decide) ?_
    have hq : cartQtyOf cartC1 itemC1.id = 3 := by
      have hfc : List.find? (fun x => x.id == itemC1.id) cartC1 = some lineC1 := by decide
      unfold cartQtyOf
      rw [hfc]
      rfl
    rw [hq]
    norm_num [itemW]
  · intro it hit
    exact h.2.2.1 lineC1 (List.mem_cons_self _ _) it hit
  · exact (h.2.2.2 _ processBill_C1).1 lineC1 (List.mem_cons_self _ _) itemW (by decide)

/-! ### C10: GRN stock receipts -/

theorem applyGrn_find_of_not_mem :
    ∀ (items : List GrnLine) (inv : List InventoryItem) (a : String),
      (∀ gi ∈ items, gi.id ≠ a) →
      findItem (applyGrnToInventory items inv) a = findItem inv a := by
  intro items
  induction items with
  | nil =>
    intro inv a _
    rfl
  | cons gi rest ih =>
    intro inv a ha
    have hstep : applyGrnToInventory (gi :: rest) inv
        = applyGrnToInventory rest
            (updateFirst (fun i => i.id == gi.id)
              (fun i => { i with stock := i.stock + gi.qty }) inv) := rfl
    rw [hstep, ih _ a (fun x hx => ha x (List.mem_cons_of_mem _ hx))]
    refine find?_updateFirst_of_disjoint (fun i => i.id == gi.id) (fun i => i.id == a)
      (fun i => { i with stock := i.stock + gi.qty }) (fun x hx => ?_) (fun x => rfl) inv
    have hxl : x.id = gi.id := by simpa using hx
    show (x.id == a) = false
    rw [hxl]
    exact beq_eq_false_iff_ne.mpr (ha gi (List.mem_cons_self _ _))

theorem applyGrn_find_mem :
    ∀ (items : List GrnLine), (items.map GrnLine.id).Nodup →
      ∀ (inv : List InventoryItem) (gi : GrnLine), gi ∈ items →
        findItem (applyGrnToInventory items inv) gi.id
          = (findItem inv gi.id).map (fun i => { i with stock := i.stock + gi.qty }) := by
  intro items
  induction items with
  | nil =>
    intro _ inv gi hgi
    exact absurd hgi (by simp)
  | cons l rest ih =>
    intro hnd inv gi hgi
    have hnd2 : (rest.map GrnLine.id).Nodup := (List.nodup_cons.mp (by simpa using hnd)).2
    have hlnotin : l.id ∉ rest.map GrnLine.id := (List.nodup_cons.mp (by simpa using hnd)).1
    have hstep : applyGrnToInventory (l :: rest) inv
        = applyGrnToInventory rest
            (updateFirst (fun i => i.id == l.id)
              (fun i => { i with stock := i.stock + l.qty }) inv) := rfl
    rcases List.mem_cons.mp hgi with h | h
    · subst h
      rw [hstep]
      rw [applyGrn_find_of_not_mem rest _ gi.id
        (fun x hx heq => hlnotin (heq ▸ List.mem_map_of_mem _ hx))]
      exact find?_updateFirst_self (fun i => i.id == gi.id)
        (fun i => { i with stock := i.stock + gi.qty }) (fun x => rfl) inv
    · have hne : gi.id ≠ l.id := by
        intro he
        apply hlnotin
        rw [← he]
        exact List.mem_map_of_mem _ h
      rw [hstep, ih hnd2 _ gi h]
      congr 1
      refine find?_updateFirst_of_disjoint (fun i => i.id == l.id) (fun i => i.id == gi.id)
        (fun i => { i with stock := i.stock + l.qty }) (fun x hx => ?_) (fun x => rfl) inv
      have hxl : x.id = l.id := by simpa using hx
      show (x.id == gi.id) = false
      rw [hxl]
      exact beq_eq_false_iff_ne.mpr (Ne.symm hne)

/-- C10: a GRN submission with non-empty supplier, date and item list
succeeds, appends exactly one GRN record carrying (a deep copy of) its
lines, increases each matched inventory item's stock by the line's qty,
leaves items not referenced by any line untouched, and does not touch
sales or customers.  The GRN-line ids are pairwise distinct because
`addGrnItemBtn` merges lines by id. -/
theorem submitGrn_correct (st : POSData) (grnId supplier grnDate : String)
    (items : List GrnLine) (hs : supplier ≠ "") (hd : grnDate ≠ "") (hi : items ≠ [])
    (hnd : (items.map GrnLine.id).Nodup) :
    ∃ st', submitGrn st grnId supplier grnDate items = some st'
      ∧ st'.grns = st.grns
          ++ [{ id := grnId, date := grnDate, supplier := supplier, items := items }]
      ∧ (∀ gi ∈ items, ∀ it, findItem st.inventory gi.id = some it →
           findItem st'.inventory gi.id = some { it with stock := it.stock + gi.qty })
      ∧ (∀ a : String, (∀ gi ∈ items, gi.id ≠ a) →
           findItem st'.inventory a = findItem st.inventory a)
      ∧ st'.sales = st.sales ∧ st'.customers = st.customers := by
  have hcond : ¬ (supplier = "" ∨ grnDate = "" ∨ items.isEmpty = true) := by
    rintro (h | h | h)
    · exact hs h
    · exact hd h
    · exact hi (List.isEmpty_iff.mp h)
  have hsub : submitGrn st grnId supplier grnDate items
      = some { st with
          grns := st.grns ++ [{ id := grnId, date := grnDate, supplier := supplier, items := items }]
          inventory := applyGrnToInventory items st.inventory } := by
    unfold submitGrn
    rw [if_neg hcond]
  refine ⟨_, hsub, rfl, ?_, ?_, rfl, rfl⟩
  · intro gi hgi it hit
    show findItem (applyGrnToInventory items st.inventory) gi.id = _
    rw [applyGrn_find_mem items hnd st.inventory gi hgi, hit]
    rfl
  · intro a ha
    exact applyGrn_find_of_not_mem items st.inventory a ha

/-- A GRN line receiving 5 more units of `itemW`. -/
def grnLineW : GrnLine := { id := "i1", code := "SKU1", name := "Widget", qty := 5 }

/-- Witness for C10 at the concrete document: receiving 5 units lifts the
stock of `itemW` from 10 to 10 + 5 and appends the GRN record. -/
theorem submitGrn_correct_witness :
    ∃ st', submitGrn stInvW "GRN-1" "Acme" "2025-03-01" [grnLineW] = some st'
      ∧ st'.grns = stInvW.grns
          ++ [{ id := "GRN-1", date := "2025-03-01", supplier := "Acme", items := [grnLineW] }]
      ∧ findItem st'.inventory grnLineW.id = some { itemW with stock := itemW.stock + grnLineW.qty }
      ∧ st'.sales = stInvW.sales := by
  obtain ⟨st', h1, h2, h3, h4, h5, h6⟩ :=
    submitGrn_correct stInvW "GRN-1" "Acme" "2025-03-01" [grnLineW]
      (by decide) (by decide) (by decide) (by decide)
  exact ⟨st', h1, h2, h3 grnLineW (List.mem_cons_self _ _) itemW (by decide), h5⟩

/-! ### C2: installments on credit bills -/

/-- C2 (amended): an installment is rejected with no state change when
the credit bill is missing, the amount is `NaN` or non-positive, or the
amount exceeds the due amount; on success `paidAmount` grows and
`dueAmount` shrinks by the amount, the record is appended to the bill's
`paymentHistory` and to the global payments with the *original* sale
`billId`, and the owning customer's `outstandingCredit` decreases by
exactly the amount — the code does not clamp it at 0, so it can go
negative when the amount exceeds the customer's current balance. -/
theorem addInstallment_correct (st : POSData) (inp : InstallmentInput) :
    (st.creditBills.find? (fun b => b.id == inp.creditBillId) = none →
       addInstallment st inp = none)
  ∧ (inp.amountInput = none → addInstallment st inp = none)
  ∧ (∀ x, inp.amountInput = some x → x ≤ 0 → addInstallment st inp = none)
  ∧ (∀ bill x, st.creditBills.find? (fun b => b.id == inp.creditBillId) = some bill →
       inp.amountInput = some x → x > bill.dueAmount → addInstallment st inp = none)
  ∧ (∀ st', addInstallment st inp = some st' →
       ∃ bill x cd, st.creditBills.find? (fun b => b.id == inp.creditBillId) = some bill
         ∧ inp.amountInput = some x ∧ 0 < x ∧ x ≤ bill.dueAmount
         ∧ (inp.method ≠ "cheque" → cd = none)
         ∧ st'.payments = st.payments ++
             [{ id := inp.paymentId, date := inp.date, billId := bill.billId, amount := x
                method := inp.method, reference := inp.reference, chequeDetails := cd }]
         ∧ st'.creditBills.find? (fun b => b.id == inp.creditBillId)
             = some { bill with
                 paidAmount := bill.paidAmount + x
                 dueAmount := bill.dueAmount - x
                 paymentHistory := bill.paymentHistory ++
                   [{ id := inp.paymentId, date := inp.date, billId := bill.billId
                      amount := x, method := inp.method, reference := inp.reference
                      chequeDetails := cd }] }
         ∧ st'.customers.find? (fun c => c.id == bill.customerId)
             = (st.customers.find? (fun c => c.id == bill.customerId)).map
                 (fun c => { c with outstandingCredit := c.outstandingCredit - x })
         ∧ st'.sales = st.sales) := by
  refine ⟨?_, ?_, ?_, ?_, ?_⟩
  · intro h
    unfold addInstallment
    rw [h]
  · intro h
    cases hf : st.creditBills.find? (fun b => b.id == inp.creditBillId) <;>
      simp [addInstallment, hf, h]
  · intro x hx h0
    cases hf : st.creditBills.find? (fun b => b.id == inp.creditBillId) <;>
      simp [addInstallment, hf, hx, h0]
  · intro bill x hf hx hover
    by_cases h0 : x ≤ 0
    · simp [addInstallment, hf, hx, h0]
    · simp [addInstallment, hf, hx, h0, hover]
  · intro st' h
    cases hf : st.creditBills.find? (fun b => b.id == inp.creditBillId) with
    | none => simp [addInstallment, hf] at h
    | some bill =>
      cases hx : inp.amountInput with
      | none => simp [addInstallment, hf, hx] at h
      | some x =>
        by_cases h0 : x ≤ 0
        · simp [addInstallment, hf, hx, h0] at h
        · by_cases hover : x > bill.dueAmount
          · simp [addInstallment, hf, hx, h0, hover] at h
          · by_cases hm : inp.method = "cheque"
            · by_cases hmiss : inp.chequeNumber = "" ∨ inp.chequeBank = "" ∨ inp.chequeDueDate = ""
              · simp [addInstallment, hf, hx, h0, hover, hm, hmiss] at h
              · have hval : addInstallment st inp = some
                    { st with
                      creditBills := updateFirst (fun b => b.id == inp.creditBillId)
                        (fun b => { b with
                          paidAmount := b.paidAmount + x
                          dueAmount := b.dueAmount - x
                          paymentHistory := b.paymentHistory ++
                            [{ id := inp.paymentId, date := inp.date
                               billId := bill.billId, amount := x
                               method := inp.method, reference := inp.reference
                               chequeDetails := some ⟨inp.chequeNumber, inp.chequeBank, inp.chequeDueDate⟩ }] })
                        st.creditBills
                      payments := st.payments ++
                        [{ id := inp.paymentId, date := inp.date, billId := bill.billId
                           amount := x, method := inp.method, reference := inp.reference
                           chequeDetails := some ⟨inp.chequeNumber, inp.chequeBank, inp.chequeDueDate⟩ }]
                      customers := updateFirst (fun c => c.id == bill.customerId)
                        (fun c => { c with outstandingCredit := c.outstandingCredit - x })
                        st.customers
                      cheques := st.cheques ++
                        [{ id := inp.chequeId, billId := bill.billId
                           chequeNumber := inp.chequeNumber, bank := inp.chequeBank
                           amount := x, dueDate := inp.chequeDueDate, status := "Pending" }] } := by
                  simp [addInstallment, hf, hx, h0, hover, hm, hmiss]
                rw [hval] at h
                injection h with h2
                refine ⟨bill, x, some ⟨inp.chequeNumber, inp.chequeBank, inp.chequeDueDate⟩,
                  rfl, rfl, not_le.mp h0, not_lt.mp hover, fun hc => absurd hm hc,
                  ?_, ?_, ?_, ?_⟩
                · rw [← h2]
                · rw [← h2]
                  rw [find?_updateFirst_self (fun b => b.id == inp.creditBillId)
                    (fun b => { b with
                      paidAmount := b.paidAmount + x
                      dueAmount := b.dueAmount - x
                      paymentHistory := b.paymentHistory ++
                        [{ id := inp.paymentId, date := inp.date
                           billId := bill.billId, amount := x
                           method := inp.method, reference := inp.reference
                           chequeDetails := some ⟨inp.chequeNumber, inp.chequeBank, inp.chequeDueDate⟩ }] })
                    (fun y => rfl) st.creditBills, hf]
                  rfl
                · rw [← h2]
                  exact find?_updateFirst_self (fun c => c.id == bill.customerId)
                    (fun c => { c with outstandingCredit := c.outstandingCredit - x })
                    (fun y => rfl) st.customers
                · rw [← h2]
            · have hval : addInstallment st inp = some
                  { st with
                    creditBills := updateFirst (fun b => b.id == inp.creditBillId)
                      (fun b => { b with
                        paidAmount := b.paidAmount + x
                        dueAmount := b.dueAmount - x
                        paymentHistory := b.paymentHistory ++
                          [{ id := inp.paymentId, date := inp.date
                             billId := bill.billId, amount := x
                             method := inp.method, reference := inp.reference
                             chequeDetails := none }] })
                      st.creditBills
                    payments := st.payments ++
                      [{ id := inp.paymentId, date := inp.date, billId := bill.billId
                         amount := x, method := inp.method, reference := inp.reference
                         chequeDetails := none }]
                    customers := updateFirst (fun c => c.id == bill.customerId)
                      (fun c => { c with outstandingCredit := c.outstandingCredit - x })
                      st.customers } := by
                simp [addInstallment, hf, hx, h0, hover, hm]
              rw [hval] at h
              injection h with h2
              refine ⟨bill, x, none, rfl, rfl, not_le.mp h0, not_lt.mp hover, fun _ => rfl,
                ?_, ?_, ?_, ?_⟩
              · rw [← h2]
              · rw [← h2]
                rw [find?_updateFirst_self (fun b => b.id == inp.creditBillId)
                  (fun b => { b with
                    paidAmount := b.paidAmount + x
                    dueAmount := b.dueAmount - x
                    paymentHistory := b.paymentHistory ++
                      [{ id := inp.paymentId, date := inp.date
                         billId := bill.billId, amount := x
                         method := inp.method, reference := inp.reference
                         chequeDetails := none }] })
                  (fun y => rfl) st.creditBills, hf]
                rfl
              · rw [← h2]
                exact find?_updateFirst_self (fun c => c.id == bill.customerId)
                  (fun c => { c with outstandingCredit := c.outstandingCredit - x })
                  (fun y => rfl) st.customers
              · rw [← h2]

/-- A customer whose outstanding credit is already 0 while a bill of
theirs still has dueAmount 100 (the state the missing clamp exposes). -/
def custC2 : Customer :=
  { id := "cust9", name := "Dana", address := "", tp := ""
    creditLimit := 1000, outstandingCredit := 0 }

/-- A credit bill of `custC2` with dueAmount 100. -/
def billC2 : CreditBill :=
  { id := "cb9", billId := "BILL-9", customerId := "cust9"
    totalAmount := 100, paidAmount := 0, dueAmount := 100
    billDate := "2025-03-01", dueDate := "", paymentHistory := [] }

/-- Document holding `custC2` and `billC2`. -/
def stC2 : POSData :=
  { defaultPOSData with customers := [custC2], creditBills := [billC2] }

/-- A 50-rupee cash installment on `billC2`. -/
def inpC2 : InstallmentInput :=
  { creditBillId := "cb9", amountInput := some 50, method := "cash", reference := ""
    chequeNumber := "", chequeBank := "", chequeDueDate := ""
    date := "2025-04-01", paymentId := "p9", chequeId := "ch9" }

/-- The payment row the installment produces. -/
def payC2 : Payment :=
  { id := "p9", date := "2025-04-01", billId := "BILL-9", amount := 50
    method := "cash", reference := "", chequeDetails := none }

/-- The document after the 50-rupee installment on `stC2`. -/
def stC2' : POSData :=
  { stC2 with
      creditBills := [{ billC2 with
        paidAmount := 50, dueAmount := 50, paymentHistory := [payC2] }]
      payments := [payC2]
      customers := [{ custC2 with outstandingCredit := -50 }] }

theorem addInstallment_stC2_eval : addInstallment stC2 inpC2 = some stC2' := by
  have hcash : ("cash" = "cheque") = False := eq_false (by decide)
  norm_num [addInstallment, stC2, stC2', billC2, custC2, inpC2, payC2, updateFirst,
    hcash, defaultPOSData]

/-- C2 counterexample: the installment handler does not clamp the
customer's `outstandingCredit` at 0 — applying a 50-rupee installment
while the customer's balance is already 0 leaves it at −50. -/
theorem installmentClamp_counterexample :
    addInstallment stC2 inpC2 = some stC2'
  ∧ stC2'.customers = [{ custC2 with outstandingCredit := -50 }]
  ∧ ({ custC2 with outstandingCredit := -50 } : Customer).outstandingCredit < 0 :=
  ⟨addInstallment_stC2_eval, rfl, by norm_num⟩

/-- Witness for C2 (amended): a `NaN` amount and an amount above the due
amount are rejected; the valid 50-rupee installment appends the payment
with the original sale id `BILL-9` and subtracts exactly 50 from the
owning customer's balance. -/
theorem addInstallment_correct_witness :
    addInstallment stC2 { inpC2 with amountInput := none } = none
  ∧ addInstallment stC2 { inpC2 with amountInput := some 200 } = none
  ∧ ∃ st', addInstallment stC2 inpC2 = some st'
      ∧ st'.payments = stC2.payments ++ [payC2]
      ∧ st'.customers.find? (fun c => c.id == billC2.customerId)
          = (stC2.customers.find? (fun c => c.id == billC2.customerId)).map
              (fun c => { c with outstandingCredit := c.outstandingCredit - 50 }) := by
  refine ⟨(addInstallment_correct stC2 _).2.1 rfl, ?_, ?_⟩
  · refine (addInstallment_correct stC2 _).2.2.2.1 billC2 200 (by decide) rfl ?_
    norm_num [billC2]
  · obtain ⟨bill, x, cd, hf, hx, h1, h2, h3, h4, h5, h6, h7⟩ :=
      (addInstallment_correct stC2 inpC2).2.2.2.2 stC2' addInstallment_stC2_eval
    have hb : bill = billC2 := by
      have hfc : stC2.creditBills.find? (fun b => b.id == inpC2.creditBillId)
          = some billC2 := by decide
      rw [hfc] at hf
      injection hf with h9
      exact h9.symm
    have hx50 : x = 50 := by
      have hxc : inpC2.amountInput = some 50 := rfl
      rw [hxc] at hx
      injection hx with h9
      exact h9.symm
    have hcd : cd = none := h3 (by decide)
    subst hb
    subst hx50
    subst hcd
    exact ⟨stC2', addInstallment_stC2_eval, h4, h6⟩

/-- A reachable state for the C7 witness: the initial document with one
added channel (a 36-character generated id). -/
def reachedW : POSData :=
  addDistributionChannel (loadPOSData none)
    "00000000-0000-4000-8000-000000000000" "Branch" "" "addr" "hot" "logo"

/-- Witness for C7 at a concrete reachable state. -/
theorem mainChannel_invariant_witness :
    mainCount reachedW = 1 ∧ deleteDistributionChannel reachedW "main" = reachedW :=
  mainChannel_invariant reachedW
    (ChannelReach.addChannel _ _ _ _ _ _ _ ChannelReach.init
      (by unfold isGeneratedId; decide))

end CRM
